import Mathlib

/-!
Verification development for the rag-groq retrieval / guardrails pipeline.

The definitions below are a shallow embedding of the JavaScript sources:
  * `src/guardrails/policies.js` — the `Guardrails` class (query/response/document
    validation, sanitization, moderation, rate limiting, disclaimer injection);
  * `src/server.js` — the `RAGEngine` class (vector index, retrieval, routing,
    query orchestration, refresh).

Modelling conventions:
  * JS strings are Lean `String`s / `List Char`; `String.length` counts code
    points (identical to JS on the ASCII inputs all claims use).
  * JS numbers used as similarity scores are modelled as `ℚ`; timestamps as `ℤ`.
  * Fields that JS leaves `undefined` are `Option`s; the JS `x || d` default
    idiom (which also replaces falsy values such as `0` and `""`) is modelled
    by the explicit `jsOr*` helpers.
  * `Map` objects are association lists with JS `Map.set` semantics
    (in-place value update for an existing key, append for a new one).
  * The regex-based global replacements of `sanitizeInput` / `sanitizeOutput`
    are modelled by the left-to-right, non-overlapping scanners below, which is
    exactly what `String.prototype.replace(/re/g, …)` does for these patterns
    (none of them can match the empty string, and for each of them regex
    backtracking is deterministic, as argued in the comments at each matcher).
-/

namespace RagGroq

/-! ## Character and string utilities -/

/-- JS `\s` on the ASCII range: space, tab, line feed, vertical tab, form feed,
carriage return.  (JS also accepts Unicode spaces; no claim involves them.) -/
def isSpace (c : Char) : Bool :=
  c = ' ' || c = '\t' || c = '\n' || c = '\x0b' || c = '\x0c' || c = '\r'

/-- JS `\w`: ASCII letters, digits, underscore. -/
def isWordChar (c : Char) : Bool :=
  ('a' ≤ c && c ≤ 'z') || ('A' ≤ c && c ≤ 'Z') || ('0' ≤ c && c ≤ '9') || c = '_'

/-- Case-insensitive (`ci = true`) or exact character comparison. -/
def charEq (ci : Bool) (a b : Char) : Bool :=
  if ci then a.toLower = b.toLower else a = b

/-- If `pat` is a prefix of `s` (under `charEq ci`), return the remainder. -/
def stripPrefixBy (ci : Bool) : List Char → List Char → Option (List Char)
  | [], s => some s
  | _ :: _, [] => none
  | p :: ps, c :: cs => if charEq ci p c then stripPrefixBy ci ps cs else none

/-- `pat` occurs as a contiguous substring of `s` (exact character match). -/
def containsSub (pat : List Char) : List Char → Bool
  | [] => pat.isEmpty
  | c :: cs => (stripPrefixBy false pat (c :: cs)).isSome || containsSub pat cs

/-- JS `s.includes(pat)` on strings. -/
def strIncludes (s pat : String) : Bool :=
  containsSub pat.toList s.toList

/-- JS `s.toLowerCase()`, character by character (the library's `String.map`
does not reduce in the kernel, so the list route is used). -/
def strToLower (s : String) : String :=
  String.mk (s.toList.map Char.toLower)

/-! ## Global regex-replacement scanner

`String.prototype.replace(/pat/g, rep)` scans left to right; at each position
it tries to match; on a match it emits the replacement and resumes *after* the
match (the replacement text is not rescanned), otherwise it emits the current
character and advances by one. -/

/-- One left-to-right global-replacement pass, fuelled so that the recursion is
structural.  `m c cs` attempts a match at the position whose first character is
`c` and remainder is `cs`; on success it returns the text to emit and the
remaining input after the match.  For a matcher that always consumes at least
one input character, fuel `s.length` is exactly enough (see
`scanReplace_cons`). -/
def scanGo (m : Char → List Char → Option (List Char × List Char)) :
    Nat → List Char → List Char
  | 0, _ => []
  | _ + 1, [] => []
  | fuel + 1, c :: cs =>
    match m c cs with
    | some (rep, rest) => rep ++ scanGo m fuel rest
    | none => c :: scanGo m fuel cs

def scanReplace (m : Char → List Char → Option (List Char × List Char))
    (s : List Char) : List Char :=
  scanGo m s.length s

/-- A matcher is *consuming* when the remainder it returns never exceeds the
tail of the input: the overall match always eats at least one character. -/
def Consuming (m : Char → List Char → Option (List Char × List Char)) : Prop :=
  ∀ c cs p, m c cs = some p → p.2.length ≤ cs.length

/-- Matcher for a literal pattern `p :: ps` replaced by `rep`
(`ci` selects case-insensitive matching). -/
def matchLit (ci : Bool) (p : Char) (ps rep : List Char)
    (c : Char) (cs : List Char) : Option (List Char × List Char) :=
  if charEq ci p c then (stripPrefixBy ci ps cs).map (fun r => (rep, r)) else none

/-- Global replacement of a literal pattern (the pattern is nonempty,
given as head and tail). -/
def replaceLit (ci : Bool) (p : Char) (ps rep : List Char) : List Char → List Char :=
  scanReplace (matchLit ci p ps rep)

/-- Matcher for `/on\w+\s*=/gi` at one position.  The regex engine is
deterministic here: `\w+` must take the maximal word-character run (shrinking
it leaves a word character where `\s*` or `=` is required, which fails), then
`\s*` the maximal whitespace run, then a literal `=` must follow. -/
def matchHandlerAt : Char → List Char → Option (List Char × List Char)
  | _, [] => none
  | c, c2 :: rest =>
    if c.toLower = 'o' && c2.toLower = 'n' then
      if (rest.takeWhile isWordChar).isEmpty then none
      else
        match (rest.dropWhile isWordChar).dropWhile isSpace with
        | [] => none
        | x :: r3 => if x = '=' then some ([], r3) else none
    else none

/-- Global removal pass for `/on\w+\s*=/gi`. -/
def removeHandlers : List Char → List Char :=
  scanReplace matchHandlerAt

/-- The literal `"</script>"` (compared case-insensitively). -/
def closeScriptTag : List Char := ['<', '/', 's', 'c', 'r', 'i', 'p', 't', '>']

/-- Find the first case-insensitive occurrence of `"</script>"` and return the
input remaining after it (the lazy `[\s\S]*?` of the script-tag regex). -/
def findCloseScript : List Char → Option (List Char)
  | [] => none
  | c :: cs =>
    match stripPrefixBy true closeScriptTag (c :: cs) with
    | some r => some r
    | none => findCloseScript cs

/-- Matcher for `/<script[^>]*>[\s\S]*?<\/script>/gi` at one position.
Backtracking is deterministic: the greedy `[^>]*` cannot cross a `>`, so the
opening tag ends at the first `>` after `<script`; the lazy body then ends at
the first subsequent `</script>`. -/
def matchScriptAt (c : Char) (cs : List Char) : Option (List Char × List Char) :=
  match stripPrefixBy true ['<', 's', 'c', 'r', 'i', 'p', 't'] (c :: cs) with
  | none => none
  | some r0 =>
    match r0.dropWhile (fun x => !(x = '>')) with
    | [] => none
    | x :: body =>
      if x = '>' then (findCloseScript body).map (fun rest => ([], rest)) else none

/-- Global removal pass for `/<script[^>]*>[\s\S]*?<\/script>/gi`. -/
def removeScripts : List Char → List Char :=
  scanReplace matchScriptAt

/-- Global removal pass for `/javascript:/gi`. -/
def removeJsScheme : List Char → List Char :=
  replaceLit true 'j' ['a', 'v', 'a', 's', 'c', 'r', 'i', 'p', 't', ':'] []

/-- `.replace(/['";\\]/g, '')` — drop SQL metacharacters. -/
def isBadChar (c : Char) : Bool :=
  c = '\'' || c = '"' || c = ';' || c = '\\'

def filterBad (s : List Char) : List Char :=
  s.filter (fun c => !isBadChar c)

/-- `.replace(/\s+/g, ' ')` — each maximal whitespace run becomes one space. -/
def collapseWs : List Char → List Char
  | [] => []
  | [c] => if isSpace c then [' '] else [c]
  | c1 :: c2 :: rest =>
    if isSpace c1 && isSpace c2 then collapseWs (c2 :: rest)
    else (if isSpace c1 then ' ' else c1) :: collapseWs (c2 :: rest)

/-- JS `String.prototype.trim`: strip whitespace from both ends. -/
def trimChars (s : List Char) : List Char :=
  ((s.dropWhile isSpace).reverse.dropWhile isSpace).reverse

/-- Well-formed whitespace: every whitespace character is a plain space and no
two adjacent characters are both whitespace.  This is exactly the state of a
string after `.replace(/\s+/g, ' ')`. -/
def WsOk (s : List Char) : Prop :=
  (∀ c ∈ s, isSpace c = true → c = ' ') ∧
    s.Chain' (fun a b => ¬(isSpace a = true ∧ isSpace b = true))

/-! ## Guardrails: sanitizers (policies.js 163–199) -/

/-- `Guardrails.sanitizeInput`: remove script tags, `javascript:` schemes and
inline event-handler attributes, drop SQL metacharacters, collapse whitespace,
trim.  `if (!text) return ''` is the empty-string guard. -/
def sanitizeInput (text : String) : String :=
  if text = "" then ""
  else String.mk (trimChars (collapseWs (filterBad
    (removeHandlers (removeJsScheme (removeScripts text.toList))))))

/-- `Guardrails.sanitizeOutput`: remove script tags and event-handler
attributes, escape `<` and `>`, re-permit the fixed whitelist
(`<br> <strong> </strong> <em> </em>`, case-sensitively), trim. -/
def sanitizeOutput (text : String) : String :=
  if text = "" then ""
  else
    String.mk (trimChars
      (replaceLit false '&' "lt;/em&gt;".toList "</em>".toList
        (replaceLit false '&' "lt;em&gt;".toList "<em>".toList
          (replaceLit false '&' "lt;/strong&gt;".toList "</strong>".toList
            (replaceLit false '&' "lt;strong&gt;".toList "<strong>".toList
              (replaceLit false '&' "lt;br&gt;".toList "<br>".toList
                (replaceLit false '>' [] "&gt;".toList
                  (replaceLit false '<' [] "&lt;".toList
                    (removeHandlers (removeScripts text.toList))))))))))

/-! ## Guardrails: data model (policies.js 6–50) -/

/-- `{ requests, window }` — e.g. `{ requests: 100, window: 60000 }`. -/
structure RateLimitCfg where
  requests : Nat
  window : Int
deriving DecidableEq

structure ContentModerationCfg where
  blockExplicit : Bool
  blockViolence : Bool
  blockHateSpeech : Bool
deriving DecidableEq

structure ResponsePoliciesCfg where
  noMedicalDiagnosis : Bool
  noLegalAdvice : Bool
  noFinancialAdvice : Bool
  citeSources : Bool
deriving DecidableEq

/-- The `policies` object.  `contentModeration` / `responsePolicies` are
`Option`s because `validateResponse` / `applyResponsePolicies` test them for
truthiness before use. -/
structure Policies where
  blockedTerms : List String
  sensitiveTopics : List String
  contentModeration : Option ContentModerationCfg
  responsePolicies : Option ResponsePoliciesCfg
deriving DecidableEq

/-- `Guardrails.getDefaultPolicies` (policies.js 21–50).  Note that its
`blockedTerms` / `sensitiveTopics` live under `this.policies` and are *not*
the `this.blockedTerms` list consulted by `validateQuery`. -/
def getDefaultPolicies : Policies where
  blockedTerms :=
    ["hack", "exploit", "malware", "virus", "phishing",
     "illegal", "unlawful", "harmful", "dangerous"]
  sensitiveTopics :=
    ["medical advice", "legal advice", "financial advice",
     "personal information", "private data"]
  contentModeration :=
    some { blockExplicit := true, blockViolence := true, blockHateSpeech := true }
  responsePolicies :=
    some { noMedicalDiagnosis := true, noLegalAdvice := true,
           noFinancialAdvice := true, citeSources := true }

/-- Constructor argument (`config`); `none` models an absent property. -/
structure GuardrailsConfig where
  enabled : Option Bool := none
  blockedTerms : Option (List String) := none
  sensitiveTopics : Option (List String) := none
  maxQueryLength : Option Nat := none
  maxResponseLength : Option Nat := none
  rateLimit : Option RateLimitCfg := none
  policies : Option Policies := none

/-- The constructed `Guardrails` instance (its immutable configuration; the
mutable `requestCounts` map is threaded separately as `RLState`). -/
structure Guardrails where
  enabled : Bool
  blockedTerms : List String
  sensitiveTopics : List String
  maxQueryLength : Nat
  maxResponseLength : Nat
  rateLimit : Option RateLimitCfg
  policies : Policies
deriving DecidableEq

/-- JS `v || d` for numbers: `0` (and absence) falls back to the default. -/
def jsOrNat (v : Option Nat) (d : Nat) : Nat :=
  match v with
  | some n => if n = 0 then d else n
  | none => d

/-- JS `v || d` for strings: the empty string (and absence) falls back. -/
def jsOrStr (v : Option String) (d : String) : String :=
  match v with
  | some s => if s = "" then d else s
  | none => d

/-- `Guardrails` constructor (policies.js 7–16): `enabled` uses `??` (nullish
coalescing), the lists use `|| []`, the lengths use `|| 2000` / `|| 10000`,
`rateLimit` uses `|| null`, `policies` uses `|| this.getDefaultPolicies()`. -/
def mkGuardrails (cfg : GuardrailsConfig) : Guardrails where
  enabled := cfg.enabled.getD true
  blockedTerms := cfg.blockedTerms.getD []
  sensitiveTopics := cfg.sensitiveTopics.getD []
  maxQueryLength := jsOrNat cfg.maxQueryLength 2000
  maxResponseLength := jsOrNat cfg.maxResponseLength 10000
  rateLimit := cfg.rateLimit
  policies := cfg.policies.getD getDefaultPolicies

/-- `this.requestCounts`: per-user timestamp lists; a user that was never
recorded maps to `[]` (`this.requestCounts.get(userId) || []`). -/
def RLState : Type := String → List Int

def emptyRLState : RLState := fun _ => []

/-- `this.requestCounts.set(userId, l)`. -/
def setUser (st : RLState) (u : String) (l : List Int) : RLState :=
  fun v => if v = u then l else st v

/-- Non-blocking sensitive-topic warnings attached to an allowed query. -/
structure Warnings where
  sensitiveTopics : List String
  message : String
deriving DecidableEq

/-- `{ allowed, reason?, sanitized?, warnings? }`. -/
structure QueryValidation where
  allowed : Bool
  reason : Option String := none
  sanitized : Option String := none
  warnings : Option Warnings := none
deriving DecidableEq

/-- The length-rejection reason string. -/
def lengthReason (g : Guardrails) : String :=
  "Query exceeds maximum length of " ++ toString g.maxQueryLength ++ " characters"

/-- The rate-limit rejection reason string.  JS prints
`rateLimit.window / 1000` with float division; the claims only compare this
string with itself, so integer division is used for the embedding. -/
def rateReason (rl : RateLimitCfg) : String :=
  "Rate limit exceeded. Maximum " ++ toString rl.requests ++ " requests per " ++
    toString (rl.window / 1000) ++ " seconds"

/-- The blocked-terms and sensitive-topics checks of `validateQuery`
(policies.js 88–118), performed on the sanitized query. -/
def checkTermsAndTopics (g : Guardrails) (query : String) : QueryValidation :=
  let sanitized := sanitizeInput query
  let lowerQuery := strToLower sanitized
  if g.blockedTerms.any (fun term => strIncludes lowerQuery (strToLower term)) then
    { allowed := false, reason := some "Query contains blocked content",
      sanitized := some sanitized }
  else
    let sensitiveFound :=
      g.sensitiveTopics.filter (fun topic => strIncludes lowerQuery (strToLower topic))
    { allowed := true, sanitized := some sanitized,
      warnings :=
        if 0 < sensitiveFound.length then
          some { sensitiveTopics := sensitiveFound,
                 message :=
                   "This query may involve sensitive topics. Responses are for informational purposes only." }
        else none }

/-- `Guardrails.validateQuery(query, userId)` (policies.js 58–119), with the
current clock `now` (`Date.now()`) and the mutable `requestCounts` state passed
explicitly; returns the validation object and the updated state. -/
def validateQuery (g : Guardrails) (query : String) (userId : String)
    (now : Int) (st : RLState) : QueryValidation × RLState :=
  if ¬ g.enabled then ({ allowed := true, sanitized := some query }, st)
  else if g.maxQueryLength < query.length then
    ({ allowed := false, reason := some (lengthReason g) }, st)
  else
    match g.rateLimit with
    | some rl =>
      let recent := (st userId).filter (fun t => now - t < rl.window)
      if rl.requests ≤ recent.length then
        ({ allowed := false, reason := some (rateReason rl) }, st)
      else
        (checkTermsAndTopics g query, setUser st userId (recent ++ [now]))
    | none => (checkTermsAndTopics g query, st)

/-- `Guardrails.checkContentModeration` (policies.js 204–235): explicit terms
always reject; violence terms reject only when the response is short
(`length < 500`). -/
def checkContentModeration (cm : ContentModerationCfg) (text : String) :
    QueryValidation :=
  let lowerText := strToLower text
  if cm.blockExplicit &&
      ["explicit", "nsfw", "adult content"].any (fun t => strIncludes lowerText t) then
    { allowed := false, reason := some "Response contains inappropriate content" }
  else if cm.blockViolence &&
      ["kill", "murder", "violence", "harm", "attack"].any
        (fun t => strIncludes lowerText t) &&
      lowerText.length < 500 then
    { allowed := false, reason := some "Response may contain violent content" }
  else { allowed := true }

/-- `Guardrails.validateResponse(response)` (policies.js 126–158). -/
def validateResponse (g : Guardrails) (response : String) : QueryValidation :=
  if ¬ g.enabled then { allowed := true, sanitized := some response }
  else if g.maxResponseLength < response.length then
    { allowed := false,
      reason := some ("Response exceeds maximum length of " ++
        toString g.maxResponseLength ++ " characters") }
  else
    let sanitized := sanitizeOutput response
    match g.policies.contentModeration with
    | some cm =>
      let checks := checkContentModeration cm sanitized
      if ¬ checks.allowed then
        { allowed := false, reason := checks.reason, sanitized := some sanitized }
      else { allowed := true, sanitized := some sanitized }
    | none => { allowed := true, sanitized := some sanitized }

/-- `Guardrails.applyResponsePolicies(response, query)` (policies.js 240–277):
keyword-triggered disclaimer injection against the query. -/
def applyResponsePolicies (g : Guardrails) (response query : String) : String :=
  match g.policies.responsePolicies with
  | none => response
  | some rp =>
    let lowerQuery := strToLower query
    let medical :=
      if rp.noMedicalDiagnosis &&
          ["symptom", "diagnosis", "treatment", "medical"].any
            (fun k => strIncludes lowerQuery k) then
        ["⚠️ This is not medical advice. Consult a healthcare professional for medical concerns."]
      else []
    let legal :=
      if rp.noLegalAdvice &&
          ["legal", "law", "lawsuit", "attorney"].any
            (fun k => strIncludes lowerQuery k) then
        ["⚠️ This is not legal advice. Consult a qualified attorney for legal matters."]
      else []
    let financial :=
      if rp.noFinancialAdvice &&
          ["investment", "stock", "financial", "trading"].any
            (fun k => strIncludes lowerQuery k) then
        ["⚠️ This is not financial advice. Consult a financial advisor for investment decisions."]
      else []
    let disclaimers := medical ++ legal ++ financial
    if 0 < disclaimers.length then
      response ++ "\n\n" ++ String.intercalate "\n" disclaimers
    else response

/-- `Guardrails.validateDocument(content)` (policies.js 282–300), reduced to
its `allowed` bit. -/
def validateDocument (g : Guardrails) (content : String) : Bool :=
  if ¬ g.enabled then true
  else
    ¬ g.blockedTerms.any (fun term => strIncludes (strToLower content) (strToLower term))

/-! ## RAG engine: data model (server.js, class `RAGEngine`) -/

/-- Opaque per-document metadata: the engine passes it through untouched. -/
abbrev Metadata := String

/-- A retrieval result `{id, content, metadata, score}`. -/
structure ScoredDoc where
  id : String
  content : String
  metadata : Metadata
  score : ℚ
deriving DecidableEq

/-- A document as returned by the data source (`getDocuments()`). -/
structure SrcDoc where
  id : String
  content : String
  metadata : Metadata
deriving DecidableEq

/-- An indexed document: `{...doc, vector}`. -/
structure DocV where
  id : String
  content : String
  metadata : Metadata
  vector : List ℚ
deriving DecidableEq

/-- `this.documentVectors`: a JS `Map` in insertion order. -/
abbrev VIndex := List (String × DocV)

/-- JS `Map.get`: the value at the (unique) key, if present. -/
def getEntry : VIndex → String → Option DocV
  | [], _ => none
  | (k', v) :: rest, k => if k' = k then some v else getEntry rest k

/-- JS `Map.set`: update in place for an existing key, append otherwise. -/
def setEntry : VIndex → String → DocV → VIndex
  | [], k, v => [(k, v)]
  | (k', v') :: rest, k, v =>
    if k' = k then (k, v) :: rest else (k', v') :: setEntry rest k v

/-- JS `Map.has`. -/
def containsKey (m : VIndex) (k : String) : Bool :=
  m.any (fun p => p.1 = k)

/-- `Array.from(this.documentVectors.values())`. -/
def values (m : VIndex) : List DocV :=
  m.map (fun p => p.2)

/-- Descending-by-score stable insertion: an element passes every entry that
scores strictly higher and stops in front of the first entry scoring no higher
(so an earlier candidate precedes later candidates with equal score). -/
def insertDescPair (x : String × ℚ) : List (String × ℚ) → List (String × ℚ)
  | [] => [x]
  | y :: ys => if x.2 < y.2 then y :: insertDescPair x ys else x :: y :: ys

/-- Stable sort by score descending; ties keep candidate order. -/
def sortDescPairs : List (String × ℚ) → List (String × ℚ)
  | [] => []
  | x :: xs => insertDescPair x (sortDescPairs xs)

/-- Modelled from the spec: the embeddings backend (`LocalEmbeddings`) is not
among the repository sources provided — per spec §4.1/§6,
`findSimilar(queryVector, candidates, k)` ranks candidates by cosine
similarity descending, ties broken by candidate order, and returns `k`
`{id, score}` pairs.  The cosine-similarity measure itself is abstracted as
the parameter `simF` (it is not rational-valued computable data of this
repository). -/
def findSimilar (simF : List ℚ → List ℚ → ℚ) (queryVector : List ℚ)
    (docs : List DocV) (k : Nat) : List (String × ℚ) :=
  (sortDescPairs (docs.map (fun d => (d.id, simF queryVector d.vector)))).take k

/-- The engine configuration and collaborators (`this.*` of `RAGEngine`).
`simF`/`embedF` stand for the embeddings backend, `searchF` for
`dataSource.search`, `genF` for `llm.generateResponse` (its `history` and
`temperature` options flow through opaquely and are absorbed into the
function). -/
structure Engine where
  hasEmbeddings : Bool
  simF : List ℚ → List ℚ → ℚ
  embedF : String → List ℚ
  searchF : String → Nat → List ScoredDoc
  genF : String → List ScoredDoc → Option String → String
  index : VIndex
  guardrails : Option Guardrails
  topK : Nat
  similarityThreshold : ℚ
  routingThreshold : ℚ
  initialized : Bool

/-- `RAGEngine.retrieveByVector` (server.js 712–750): fetch `topK*2`
candidates, keep those at or above the similarity threshold capped at `topK`;
if none pass but candidates exist, fall back to the best `topK`.
(The JS `this.documentVectors.get(id)` lookup is total here via `Option.map`;
for indices built by `buildVectorIndex` the lookup always succeeds.) -/
def retrieveByVector (e : Engine) (query : String) (topK : Nat) : List ScoredDoc :=
  let queryVector := e.embedF query
  let documents := values e.index
  let similarities := findSimilar e.simF queryVector documents (topK * 2)
  let toResult : String × ℚ → Option ScoredDoc := fun p =>
    (getEntry e.index p.1).map (fun d =>
      { id := d.id, content := d.content, metadata := d.metadata, score := p.2 })
  let results :=
    ((similarities.filter (fun p => e.similarityThreshold ≤ p.2)).take topK).filterMap toResult
  if results.length = 0 ∧ 0 < similarities.length then
    (similarities.take topK).filterMap toResult
  else results

/-- `RAGEngine.retrieve` (server.js 696–704): vector search when embeddings
are configured and the index is non-empty, otherwise the data source's native
search. -/
def retrieve (e : Engine) (query : String) (topK : Nat) : List ScoredDoc :=
  if e.hasEmbeddings ∧ 0 < e.index.length then retrieveByVector e query topK
  else e.searchF query topK

/-- The routing decision object.  In the `no_documents` branch the source
returns no `topScore`/`avgScore` fields at all, hence the `Option`s. -/
structure RouteDecision where
  useRAG : Bool
  reason : String
  topScore : Option ℚ
  avgScore : Option ℚ
  docs : List ScoredDoc
deriving DecidableEq

/-- `retrievedDocs[0]?.score || 0` — the head score; `|| 0` can only replace a
falsy score (`0`) by `0` itself. -/
def headScoreOr0 (docs : List ScoredDoc) : ℚ :=
  match docs.head? with
  | some d => d.score
  | none => 0

/-- `retrievedDocs.reduce((sum, d) => sum + d.score, 0)`. -/
def sumScores (docs : List ScoredDoc) : ℚ :=
  (docs.map (fun d => d.score)).sum

/-- `RAGEngine.routeQuery` (server.js 757–786). -/
def routeQuery (e : Engine) (query : String) : RouteDecision :=
  let retrievedDocs := retrieve e query e.topK
  if retrievedDocs.length = 0 then
    { useRAG := false, reason := "no_documents",
      topScore := none, avgScore := none, docs := [] }
  else
    let topScore := headScoreOr0 retrievedDocs
    let avg := sumScores retrievedDocs / (retrievedDocs.length : ℚ)
    if topScore < e.routingThreshold then
      { useRAG := false, reason := "low_relevance",
        topScore := some topScore, avgScore := some avg, docs := retrievedDocs }
    else
      { useRAG := true, reason := "relevant_content",
        topScore := some topScore, avgScore := some avg, docs := retrievedDocs }

/-- `RAGEngine.buildVectorIndex` (server.js 657–667): embed every document of
the data source and `set` it into the *existing* `documentVectors` map. -/
def buildVectorIndex (embedF : String → List ℚ) (documents : List SrcDoc)
    (index : VIndex) : VIndex :=
  documents.foldl
    (fun m doc =>
      setEntry m doc.id
        { id := doc.id, content := doc.content, metadata := doc.metadata,
          vector := embedF doc.content })
    index

/-- `RAGEngine.refresh` (server.js 1054–1063): reload documents, rebuild the
vocabulary (external to this model; any effect on the embedding function is
absorbed into `embedF`), then `buildVectorIndex` into the existing map. -/
def refreshIndex (embedF : String → List ℚ) (documents : List SrcDoc)
    (index : VIndex) : VIndex :=
  buildVectorIndex embedF documents index

/-! ## Query orchestrator (server.js 796–917) -/

/-- The four recognised `options.mode` values; any other string falls into the
`switch` default, which behaves like `auto`. -/
inductive Mode
  | auto
  | rag
  | hybrid
  | llm
deriving DecidableEq

structure QueryOptions where
  mode : Option Mode := none
  topK : Option Nat := none
  userId : Option String := none
  systemPrompt : Option String := none

structure RoutingInfo where
  topScore : ℚ
  avgScore : ℚ
  docCount : Nat
deriving DecidableEq

/-- One entry of `result.sources`. -/
structure SourceEntry where
  id : String
  content : String
  preview : String
  metadata : Metadata
  score : ℚ
deriving DecidableEq

structure QueryResult where
  answer : String
  sources : List SourceEntry
  query : String
  mode : Mode
  routing : Option RoutingInfo
  blocked : Bool := false
  reason : Option String := none
  warnings : Option Warnings := none
deriving DecidableEq

/-- The result of one orchestrated query, instrumented with whether
`llm.generateResponse` was invoked. -/
structure QueryOutcome where
  result : QueryResult
  llmCalled : Bool
deriving DecidableEq

/-- `RAGEngine.getDirectLLMPrompt` (server.js 923–926). -/
def getDirectLLMPrompt : String :=
  "You are a helpful AI assistant. Answer the user's question to the best of your knowledge.\nIf you don't know something, say so. Be concise and accurate."

/-- `RAGEngine.getHybridPrompt` (server.js 932–948). -/
def getHybridPrompt : String :=
  "You are a knowledgeable AI assistant. You MUST follow this EXACT response format:\n\n**REQUIRED FORMAT:**\n\nFrom your data:\n[Quote relevant information from the provided context. Use quotation marks for direct quotes. Cite the source if available.]\n\nAdditional information:\n[Add your own knowledge to expand on the topic. Provide useful context, examples, or explanations that go beyond what's in the data.]\n\n**RULES:**\n- ALWAYS use both sections \"From your data:\" and \"Additional information:\" in your response\n- The \"From your data:\" section MUST contain quotes or paraphrased content from the context provided\n- The \"Additional information:\" section MUST add value beyond just the context\n- If the context is not relevant, say \"No directly relevant information found in your data\" then provide general knowledge\n- Be comprehensive and helpful"

/-- `doc.content.substring(0, 200) + (doc.content.length > 200 ? '...' : '')`. -/
def mkPreview (content : String) : String :=
  String.mk (content.toList.take 200) ++ (if 200 < content.length then "..." else "")

def mkSourceEntry (doc : ScoredDoc) : SourceEntry :=
  { id := doc.id, content := doc.content, preview := mkPreview doc.content,
    metadata := doc.metadata, score := doc.score }

/-- JS template interpolation of a possibly-undefined value. -/
def optStr : Option String → String
  | some s => s
  | none => "undefined"

/-- `options.topK || this.topK`. -/
def queryTopK (e : Engine) (options : QueryOptions) : Nat :=
  jsOrNat options.topK e.topK

/-- `options.mode || 'hybrid'`. -/
def queryRequestedMode (options : QueryOptions) : Mode :=
  options.mode.getD Mode.hybrid

/-- The up-front retrieval of `query` (server.js 809–817): performed for every
requested mode except `llm`. -/
def queryRetrievedDocs (e : Engine) (query : String) (options : QueryOptions) :
    List ScoredDoc :=
  if queryRequestedMode options ≠ Mode.llm then
    retrieve e query (queryTopK e options)
  else []

/-- `routingInfo = {topScore, avgScore, docCount}` (null for requested mode
`llm`). -/
def queryRoutingInfo (e : Engine) (query : String) (options : QueryOptions) :
    Option RoutingInfo :=
  if queryRequestedMode options ≠ Mode.llm then
    some { topScore := headScoreOr0 (queryRetrievedDocs e query options),
           avgScore :=
             if 0 < (queryRetrievedDocs e query options).length then
               sumScores (queryRetrievedDocs e query options) /
                 ((queryRetrievedDocs e query options).length : ℚ)
             else 0,
           docCount := (queryRetrievedDocs e query options).length }
  else none

/-- The prompt/mode `switch` (server.js 820–850): skipped entirely when the
caller supplies `options.systemPrompt`; `llm` clears the retrieved docs;
`auto` resolves to `hybrid` or `llm` by `routingInfo.topScore` against
`routingThreshold` (keeping the docs for display in the `llm` case). -/
def queryResolve (e : Engine) (query : String) (options : QueryOptions) :
    Mode × Option String × List ScoredDoc :=
  match options.systemPrompt with
  | some sp => (queryRequestedMode options, some sp, queryRetrievedDocs e query options)
  | none =>
    match queryRequestedMode options with
    | Mode.hybrid => (Mode.hybrid, some getHybridPrompt, queryRetrievedDocs e query options)
    | Mode.rag => (Mode.rag, none, queryRetrievedDocs e query options)
    | Mode.llm => (Mode.llm, some getDirectLLMPrompt, [])
    | Mode.auto =>
      match queryRoutingInfo e query options with
      | some ri =>
        if e.routingThreshold ≤ ri.topScore then
          (Mode.hybrid, some getHybridPrompt, queryRetrievedDocs e query options)
        else (Mode.llm, some getDirectLLMPrompt, queryRetrievedDocs e query options)
      | none => (Mode.llm, some getDirectLLMPrompt, queryRetrievedDocs e query options)

/-- `RAGEngine.query(query, options)` (server.js 796–917), with the clock and
the rate-limit state passed explicitly.  Mirrors the source's sequencing:
initialization check; retrieval and `routingInfo` (skipped for requested mode
`llm`); prompt/mode resolution (the `switch`, skipped entirely when the caller
supplies `options.systemPrompt`); `validateQuery` with short-circuit on
rejection; `validateDocument` filtering; generation; `validateResponse` with
answer substitution on rejection, otherwise sanitization plus
`applyResponsePolicies`; result assembly. -/
def queryModel (e : Engine) (query : String) (options : QueryOptions)
    (now : Int) (st : RLState) : Except String (QueryOutcome × RLState) :=
  if ¬ e.initialized then
    Except.error "RAG engine not initialized. Call initialize() first."
  else
    let routingInfo := queryRoutingInfo e query options
    let mode := (queryResolve e query options).1
    let systemPrompt := (queryResolve e query options).2.1
    let docs := (queryResolve e query options).2.2
    match e.guardrails with
    | some g =>
      let vr := validateQuery g query (options.userId.getD "default") now st
      if ¬ vr.1.allowed then
        Except.ok
          ({ result :=
               { answer := "I cannot process this query: " ++ optStr vr.1.reason,
                 sources := [],
                 query := jsOrStr vr.1.sanitized query,
                 mode := mode, routing := routingInfo,
                 blocked := true, reason := vr.1.reason,
                 warnings := none },
             llmCalled := false }, vr.2)
      else
        let query2 := vr.1.sanitized.getD query
        let filteredDocs := docs.filter (fun doc => validateDocument g doc.content)
        let answer :=
          e.genF query2 (if mode = Mode.llm then [] else filteredDocs) systemPrompt
        let rv := validateResponse g answer
        let finalAnswer :=
          if ¬ rv.allowed then "Response blocked: " ++ optStr rv.reason
          else applyResponsePolicies g (rv.sanitized.getD answer) query2
        Except.ok
          ({ result :=
               { answer := finalAnswer,
                 sources := filteredDocs.map mkSourceEntry,
                 query := jsOrStr vr.1.sanitized query2,
                 mode := mode, routing := routingInfo,
                 blocked := false, reason := none,
                 warnings := vr.1.warnings },
             llmCalled := true }, vr.2)
    | none =>
      let answer :=
        e.genF query (if mode = Mode.llm then [] else docs) systemPrompt
      Except.ok
        ({ result :=
             { answer := answer,
               sources := docs.map mkSourceEntry,
               query := query,
               mode := mode, routing := routingInfo,
               blocked := false, reason := none,
               warnings := none },
           llmCalled := true }, st)

/-- Run a sequence of `validateQuery` calls (one per timestamp, same query and
user), threading the rate-limit state; returns the final state. -/
def callFold (g : Guardrails) (q u : String) : List Int → RLState → RLState
  | [], st => st
  | t :: ts, st => callFold g q u ts (validateQuery g q u t st).2

/-- Run a sequence of `validateQuery` calls and collect every call's
validation result. -/
def callResults (g : Guardrails) (q u : String) : List Int → RLState → List QueryValidation
  | [], _ => []
  | t :: ts, st =>
    (validateQuery g q u t st).1 :: callResults g q u ts (validateQuery g q u t st).2

/-- Concrete guardrails for the C10 witness: blocked term "malware", rate
limit `{requests := 2, window := 1000}`. -/
def atomicityG2 : Guardrails :=
  mkGuardrails { blockedTerms := some ["malware"], rateLimit := some ⟨2, 1000⟩ }

/-- As `atomicityG2` but with `maxQueryLength := 3`. -/
def atomicityG2short : Guardrails :=
  mkGuardrails { blockedTerms := some ["malware"], maxQueryLength := some 3,
                 rateLimit := some ⟨2, 1000⟩ }

/-- As `atomicityG2` but with `requests := 1`. -/
def atomicityG1 : Guardrails :=
  mkGuardrails { blockedTerms := some ["malware"], rateLimit := some ⟨1, 1000⟩ }

/-- Engine with no embeddings and an empty native search (for the C4
witness's `no_documents` case). -/
def emptyEngine : Engine where
  hasEmbeddings := false
  simF := fun _ _ => 0
  embedF := fun _ => []
  searchF := fun _ _ => []
  genF := fun _ _ _ => ""
  index := []
  guardrails := none
  topK := 10
  similarityThreshold := 0
  routingThreshold := 0
  initialized := true

/-- Engine whose native search returns one document with score `1` (for the
C4 witness's `relevant_content` case). -/
def oneDocEngine : Engine where
  hasEmbeddings := false
  simF := fun _ _ => 0
  embedF := fun _ => []
  searchF := fun _ _ => [{ id := "a", content := "c", metadata := "", score := 1 }]
  genF := fun _ _ _ => ""
  index := []
  guardrails := none
  topK := 10
  similarityThreshold := 0
  routingThreshold := 0
  initialized := true

/-! ## C3 — threshold-fallback guarantee -/

/-- Engine with embeddings configured and a one-document vector index. -/
def vecEngine : Engine where
  hasEmbeddings := true
  simF := fun _ _ => 1
  embedF := fun _ => []
  searchF := fun _ _ => []
  genF := fun _ _ _ => ""
  index := [("a", { id := "a", content := "ca", metadata := "", vector := [] })]
  guardrails := none
  topK := 10
  similarityThreshold := 0
  routingThreshold := 0
  initialized := true

/-- Engine whose guardrails reject any query longer than 3 characters. -/
def blockedEngine : Engine :=
  { emptyEngine with guardrails := some (mkGuardrails { maxQueryLength := some 3 }) }

/-- Engine with default guardrails whose generator always produces a response
of 11,000 characters. -/
def longAnswerEngine : Engine :=
  { emptyEngine with
      guardrails := some (mkGuardrails {}),
      genF := fun _ _ _ => String.mk (List.replicate 11000 'a') }

/-- Rate-limit-only guardrails for the C5 witness: one request per 10 ms. -/
def rateG : Guardrails := mkGuardrails { rateLimit := some ⟨1, 10⟩ }

/-! # Theorems -/

theorem stripPrefixBy_length {ci : Bool} :
    ∀ {pat s r : List Char}, stripPrefixBy ci pat s = some r →
      r.length + pat.length = s.length := by
  intro pat
  induction pat with
  | nil => intro s r h; simp [stripPrefixBy] at h; simp [h]
  | cons p ps ih =>
    intro s r h
    cases s with
    | nil => simp [stripPrefixBy] at h
    | cons c cs =>
      simp only [stripPrefixBy] at h
      by_cases hc : charEq ci p c
      · simp [hc] at h
        have := ih h
        simp [List.length_cons]
        omega
      · simp [hc] at h

theorem scanGo_fuel (m : Char → List Char → Option (List Char × List Char))
    (hm : Consuming m) :
    ∀ f1 f2 s, s.length ≤ f1 → s.length ≤ f2 → scanGo m f1 s = scanGo m f2 s := by
  intro f1
  induction f1 with
  | zero =>
    intro f2 s h1 _
    have : s = [] := List.eq_nil_of_length_eq_zero (Nat.le_zero.mp h1)
    subst this
    cases f2 <;> simp [scanGo]
  | succ f1 ih =>
    intro f2 s h1 h2
    cases s with
    | nil => cases f2 <;> simp [scanGo]
    | cons c cs =>
      cases f2 with
      | zero => simp at h2
      | succ f2 =>
        simp only [scanGo]
        simp only [List.length_cons] at h1 h2
        cases hmc : m c cs with
        | some p =>
          obtain ⟨rep, rest⟩ := p
          have hr := hm c cs _ hmc
          simp only at hr
          show rep ++ scanGo m f1 rest = rep ++ scanGo m f2 rest
          rw [ih f2 rest (by omega) (by omega)]
        | none =>
          show c :: scanGo m f1 cs = c :: scanGo m f2 cs
          rw [ih f2 cs (by omega) (by omega)]

theorem scanReplace_nil (m : Char → List Char → Option (List Char × List Char)) :
    scanReplace m [] = [] := rfl

/-- The JS recursion equation for global replacement, valid for consuming
matchers: match at the head, emit and continue after the match, otherwise copy
one character. -/
theorem scanReplace_cons (m : Char → List Char → Option (List Char × List Char))
    (hm : Consuming m) (c : Char) (cs : List Char) :
    scanReplace m (c :: cs) =
      match m c cs with
      | some (rep, rest) => rep ++ scanReplace m rest
      | none => c :: scanReplace m cs := by
  simp only [scanReplace, List.length_cons, scanGo]
  cases hmc : m c cs with
  | some p =>
    obtain ⟨rep, rest⟩ := p
    have hr := hm c cs _ hmc
    simp only at hr
    show rep ++ scanGo m cs.length rest = rep ++ scanGo m rest.length rest
    rw [scanGo_fuel m hm cs.length rest.length rest (by omega) (by omega)]
  | none => rfl

theorem matchLit_length (ci : Bool) (p : Char) (ps rep : List Char) :
    Consuming (matchLit ci p ps rep) := by
  intro c cs q h
  simp only [matchLit] at h
  by_cases hc : charEq ci p c
  · simp [hc] at h
    obtain ⟨r, hr, hq⟩ := h
    have := stripPrefixBy_length hr
    subst hq
    simp
    omega
  · simp [hc] at h

/-! ### The three regex stages of `sanitizeInput` / `sanitizeOutput` -/

theorem length_dropWhile_le {α : Type} (p : α → Bool) (l : List α) :
    (l.dropWhile p).length ≤ l.length :=
  (List.dropWhile_sublist p).length_le

theorem matchHandlerAt_length : Consuming matchHandlerAt := by
  intro c cs q h
  cases cs with
  | nil => simp [matchHandlerAt] at h
  | cons c2 rest =>
    simp only [matchHandlerAt] at h
    by_cases hon : (c.toLower = 'o' && c2.toLower = 'n') = true
    · rw [if_pos hon] at h
      by_cases hw : (rest.takeWhile isWordChar).isEmpty = true
      · rw [if_pos hw] at h; simp at h
      · rw [if_neg hw] at h
        have h1 : ((rest.dropWhile isWordChar).dropWhile isSpace).length ≤ rest.length :=
          le_trans (length_dropWhile_le _ _) (length_dropWhile_le _ _)
        cases hd : (rest.dropWhile isWordChar).dropWhile isSpace with
        | nil => rw [hd] at h; simp at h
        | cons x r3 =>
          rw [hd] at h
          have h2 : (if x = '=' then some (([] : List Char), r3) else none) = some q := h
          by_cases hx : x = '='
          · rw [if_pos hx] at h2
            rw [hd] at h1
            simp only [List.length_cons] at h1
            have : q.2 = r3 := by
              cases h2; rfl
            rw [this]
            simp only [List.length_cons]
            omega
          · rw [if_neg hx] at h2; simp at h2
    · rw [if_neg hon] at h; simp at h

theorem findCloseScript_length :
    ∀ {s r : List Char}, findCloseScript s = some r → r.length ≤ s.length := by
  intro s
  induction s with
  | nil => intro r h; simp [findCloseScript] at h
  | cons c cs ih =>
    intro r h
    simp only [findCloseScript] at h
    revert h
    cases hs : stripPrefixBy true closeScriptTag (c :: cs) with
    | some r0 =>
      intro h
      simp at h
      subst h
      have := stripPrefixBy_length hs
      simp [closeScriptTag] at this
      simp
      omega
    | none =>
      intro h
      simp at h
      have := ih h
      simp
      omega

theorem matchScriptAt_length : Consuming matchScriptAt := by
  intro c cs q h
  simp only [matchScriptAt] at h
  cases hs : stripPrefixBy true ['<', 's', 'c', 'r', 'i', 'p', 't'] (c :: cs) with
  | none => rw [hs] at h; simp at h
  | some r0 =>
    rw [hs] at h
    have h2 : (match r0.dropWhile (fun x => !(x = '>')) with
        | [] => none
        | x :: body =>
          if x = '>' then (findCloseScript body).map (fun rest => (([] : List Char), rest))
          else none) = some q := h
    have hr0 : r0.length + 7 = cs.length + 1 := by
      have := stripPrefixBy_length hs
      simpa using this
    have hdw : (r0.dropWhile (fun x => !(x = '>'))).length ≤ r0.length :=
      length_dropWhile_le _ _
    cases hd : r0.dropWhile (fun x => !(x = '>')) with
    | nil => rw [hd] at h2; exact Option.noConfusion h2
    | cons x body =>
      rw [hd] at h2
      rw [hd] at hdw
      simp only [List.length_cons] at hdw
      have h3 : (if x = '>' then (findCloseScript body).map (fun rest => (([] : List Char), rest))
          else none) = some q := h2
      by_cases hx : x = '>'
      · rw [if_pos hx] at h3
        cases hf : findCloseScript body with
        | none => rw [hf] at h3; simp at h3
        | some rest =>
          rw [hf] at h3
          have h4 : some (([] : List Char), rest) = some q := h3
          have hfl := findCloseScript_length hf
          have : q.2 = rest := by cases h4; rfl
          rw [this]
          omega
      · rw [if_neg hx] at h3; simp at h3

/-! ### Structural facts about the character-level stages -/

theorem dropWhile_dropWhile (p : Char → Bool) :
    ∀ l : List Char, (l.dropWhile p).dropWhile p = l.dropWhile p := by
  intro l
  induction l with
  | nil => rfl
  | cons c cs ih =>
    by_cases hc : p c = true
    · rw [List.dropWhile_cons_of_pos hc, ih]
    · rw [List.dropWhile_cons_of_neg (by simp [hc]),
        List.dropWhile_cons_of_neg (by simp [hc])]

theorem head_dropWhile_false (p : Char → Bool) :
    ∀ (l : List Char) (c : Char), (l.dropWhile p).head? = some c → p c = false := by
  intro l
  induction l with
  | nil => intro c h; simp at h
  | cons a as ih =>
    intro c h
    by_cases ha : p a = true
    · rw [List.dropWhile_cons_of_pos ha] at h
      exact ih c h
    · rw [List.dropWhile_cons_of_neg (by simp [ha])] at h
      simp at h
      subst h
      simpa using ha

theorem getLast?_dropWhile (p : Char → Bool) :
    ∀ l : List Char, l.dropWhile p ≠ [] → (l.dropWhile p).getLast? = l.getLast? := by
  intro l
  induction l with
  | nil => intro h; simp [List.dropWhile] at h
  | cons a as ih =>
    intro h
    by_cases ha : p a = true
    · rw [List.dropWhile_cons_of_pos ha] at h ⊢
      have has : as ≠ [] := by
        intro hnil
        subst hnil
        simp [List.dropWhile] at h
      rw [ih h]
      cases as with
      | nil => exact absurd rfl has
      | cons b bs => simp [List.getLast?_cons_cons]
    · rw [List.dropWhile_cons_of_neg (by simp [ha])]

theorem dropWhile_eq_self_of_head (p : Char → Bool) (l : List Char)
    (h : ∀ c, l.head? = some c → p c = false) : l.dropWhile p = l := by
  cases l with
  | nil => rfl
  | cons c cs =>
    have := h c (by simp)
    rw [List.dropWhile_cons_of_neg (by simp [this])]

/-- `trimChars` is idempotent. -/
theorem trimChars_idem (s : List Char) : trimChars (trimChars s) = trimChars s := by
  unfold trimChars
  cases hw : (s.dropWhile isSpace).reverse.dropWhile isSpace with
  | nil => simp
  | cons x w' =>
    have hwne : (s.dropWhile isSpace).reverse.dropWhile isSpace ≠ [] := by
      rw [hw]; simp
    rw [← hw]
    set w := (s.dropWhile isSpace).reverse.dropWhile isSpace with hwdef
    have hstep1 : w.reverse.dropWhile isSpace = w.reverse := by
      apply dropWhile_eq_self_of_head
      intro c hc
      rw [List.head?_reverse] at hc
      rw [hwdef] at hc
      rw [getLast?_dropWhile isSpace _ (hwdef ▸ hwne)] at hc
      rw [List.getLast?_reverse] at hc
      exact head_dropWhile_false isSpace s c hc
    rw [hstep1, List.reverse_reverse, hwdef, dropWhile_dropWhile]

theorem mem_trimChars {c : Char} {s : List Char} (h : c ∈ trimChars s) : c ∈ s := by
  unfold trimChars at h
  rw [List.mem_reverse] at h
  have h1 := (List.dropWhile_sublist (l := (s.dropWhile isSpace).reverse) isSpace).subset h
  rw [List.mem_reverse] at h1
  exact (List.dropWhile_sublist isSpace).subset h1

theorem mem_collapseWs {c : Char} : ∀ {s : List Char}, c ∈ collapseWs s → c ∈ s ∨ c = ' ' := by
  intro s
  induction s with
  | nil => intro h; simp [collapseWs] at h
  | cons c1 rest ih =>
    intro h
    cases rest with
    | nil =>
      by_cases h1 : isSpace c1 = true
      · simp [collapseWs, h1] at h
        right; exact h
      · simp [collapseWs, h1] at h
        left; simp [h]
    | cons c2 r =>
      by_cases h12 : (isSpace c1 && isSpace c2) = true
      · rw [show collapseWs (c1 :: c2 :: r) = collapseWs (c2 :: r) by
          simp [collapseWs, h12]] at h
        rcases ih h with hm | hsp
        · left; simp [hm]
        · right; exact hsp
      · rw [show collapseWs (c1 :: c2 :: r) =
            (if isSpace c1 then ' ' else c1) :: collapseWs (c2 :: r) by
          simp only [collapseWs]; rw [if_neg (by simp [h12])]] at h
        rcases List.mem_cons.mp h with hh | ht
        · by_cases h1 : isSpace c1 = true
          · right; rw [hh]; simp [h1]
          · left; rw [hh]; simp [h1]
        · rcases ih ht with hm | hsp
          · left; simp [hm]
          · right; exact hsp

theorem collapseWs_head (c : Char) :
    ∀ rest : List Char,
      (collapseWs (c :: rest)).head? = some (if isSpace c then ' ' else c) := by
  intro rest
  induction rest generalizing c with
  | nil => by_cases h1 : isSpace c = true <;> simp [collapseWs, h1]
  | cons c2 r ih =>
    by_cases h12 : (isSpace c && isSpace c2) = true
    · rw [show collapseWs (c :: c2 :: r) = collapseWs (c2 :: r) by
        simp [collapseWs, h12]]
      rw [ih c2]
      simp at h12
      simp [h12.1, h12.2]
    · rw [show collapseWs (c :: c2 :: r) =
          (if isSpace c then ' ' else c) :: collapseWs (c2 :: r) by
        simp only [collapseWs]; rw [if_neg (by simp [h12])]]
      simp

theorem wsok_collapseWs : ∀ s : List Char, WsOk (collapseWs s) := by
  intro s
  induction s with
  | nil => exact ⟨by simp [collapseWs], by simp [collapseWs]⟩
  | cons c1 rest ih =>
    cases rest with
    | nil =>
      constructor
      · intro c hc hsp
        by_cases h1 : isSpace c1 = true
        · simp [collapseWs, h1] at hc; exact hc
        · simp [collapseWs, h1] at hc
          subst hc
          simp [h1] at hsp
      · by_cases h1 : isSpace c1 = true <;> simp [collapseWs, h1]
    | cons c2 r =>
      by_cases h12 : (isSpace c1 && isSpace c2) = true
      · rw [show collapseWs (c1 :: c2 :: r) = collapseWs (c2 :: r) by
          simp [collapseWs, h12]]
        exact ih
      · rw [show collapseWs (c1 :: c2 :: r) =
            (if isSpace c1 then ' ' else c1) :: collapseWs (c2 :: r) by
          simp only [collapseWs]; rw [if_neg (by simp [h12])]]
        obtain ⟨ihm, ihc⟩ := ih
        constructor
        · intro c hc hsp
          rcases List.mem_cons.mp hc with hh | ht
          · subst hh
            by_cases h1 : isSpace c1 = true
            · simp [h1]
            · simp [h1] at hsp
          · exact ihm c ht hsp
        · rw [List.chain'_cons']
          refine ⟨?_, ihc⟩
          intro y hy
          rw [collapseWs_head c2 r] at hy
          simp at hy
          subst hy
          by_cases h1 : isSpace c1 = true
          · have h2 : isSpace c2 = false := by
              simp [h1] at h12
              simpa using h12
            rw [if_pos h1, if_neg (by simp [h2])]
            intro hcontr
            rw [h2] at hcontr
            exact absurd hcontr.2 (by simp)
          · rw [if_neg h1]
            intro hcontr
            exact h1 hcontr.1

theorem chain'_dropWhile {R : Char → Char → Prop} (p : Char → Bool) :
    ∀ l : List Char, l.Chain' R → (l.dropWhile p).Chain' R := by
  intro l
  induction l with
  | nil => intro _; simp [List.dropWhile]
  | cons c cs ih =>
    intro h
    by_cases hc : p c = true
    · rw [List.dropWhile_cons_of_pos hc]
      exact ih h.tail
    · rw [List.dropWhile_cons_of_neg (by simp [hc])]
      exact h

theorem wsok_trimChars {s : List Char} (h : WsOk s) : WsOk (trimChars s) := by
  obtain ⟨hm, hc⟩ := h
  constructor
  · intro c hcm hsp
    exact hm c (mem_trimChars hcm) hsp
  · unfold trimChars
    rw [List.chain'_reverse]
    have h1 : (s.dropWhile isSpace).Chain' (fun a b => ¬(isSpace a = true ∧ isSpace b = true)) :=
      chain'_dropWhile isSpace s hc
    have h2 : ((s.dropWhile isSpace).reverse).Chain'
        (fun a b => ¬(isSpace a = true ∧ isSpace b = true)) := by
      rw [List.chain'_reverse]
      exact h1.imp (fun a b hab => by
        intro hh
        exact hab ⟨hh.2, hh.1⟩)
    have h3 := chain'_dropWhile (R := fun a b => ¬(isSpace a = true ∧ isSpace b = true))
      isSpace _ h2
    exact h3.imp (fun a b hab => by
      intro hh
      exact hab ⟨hh.2, hh.1⟩)

theorem collapseWs_eq_self : ∀ {s : List Char}, WsOk s → collapseWs s = s := by
  intro s
  induction s with
  | nil => intro _; rfl
  | cons c1 rest ih =>
    intro h
    obtain ⟨hm, hc⟩ := h
    cases rest with
    | nil =>
      by_cases h1 : isSpace c1 = true
      · have := hm c1 (by simp) h1
        simp [collapseWs, h1, this]
      · simp [collapseWs, h1]
    | cons c2 r =>
      have hch := List.chain'_cons.mp hc
      have h12 : (isSpace c1 && isSpace c2) ≠ true := by
        simp
        intro ha
        by_cases hb : isSpace c2 = true
        · exact absurd ⟨ha, hb⟩ hch.1
        · simpa using hb
      rw [show collapseWs (c1 :: c2 :: r) =
          (if isSpace c1 then ' ' else c1) :: collapseWs (c2 :: r) by
        simp only [collapseWs]; rw [if_neg h12]]
      have htail : WsOk (c2 :: r) :=
        ⟨fun c hcm hsp => hm c (by simp [hcm]) hsp, hch.2⟩
      rw [ih htail]
      by_cases h1 : isSpace c1 = true
      · rw [if_pos h1, hm c1 (by simp) h1]
      · rw [if_neg h1]

theorem toList_mk (l : List Char) : (String.mk l).toList = l := rfl

theorem mk_toList (t : String) : String.mk t.toList = t := rfl

/-- The trailing three stages of `sanitizeInput` (metacharacter filtering,
whitespace collapsing, trimming) are idempotent as a pipeline. -/
theorem filterBad_collapse_trim_fixed (u : List Char) :
    let w := trimChars (collapseWs (filterBad u))
    filterBad w = w ∧ collapseWs w = w ∧ trimChars w = w := by
  intro w
  have hA : filterBad w = w := by
    apply List.filter_eq_self.mpr
    intro c hcw
    have h1 : c ∈ collapseWs (filterBad u) := mem_trimChars hcw
    rcases mem_collapseWs h1 with hmem | hsp
    · exact (List.mem_filter.mp hmem).2
    · subst hsp; decide
  have hB : collapseWs w = w :=
    collapseWs_eq_self (wsok_trimChars (wsok_collapseWs (filterBad u)))
  have hC : trimChars w = w := trimChars_idem (collapseWs (filterBad u))
  exact ⟨hA, hB, hC⟩

/-! # Theorems -/

/-! ## C9 — the default blocked-terms wiring (code bug) -/

/-- C9: the spec scenario says a query containing "malware" is rejected by
`validateQuery` with reason "Query contains blocked content".  The code's own
default policy table (`getDefaultPolicies`, comment "Block queries containing
these terms") lists "malware", but the constructor stores that table under
`this.policies`, while `validateQuery` consults `this.blockedTerms`, which
defaults to `[]`.  Consequently a default-configured `Guardrails` instance
*allows* a query containing "malware": the code contradicts its own default
policy table and the spec scenario. -/
theorem validateQuery_default_allows_malware :
    strIncludes "tell me about malware" "malware" = true ∧
    "malware" ∈ getDefaultPolicies.blockedTerms ∧
    (mkGuardrails {}).blockedTerms = [] ∧
    (validateQuery (mkGuardrails {}) "tell me about malware" "default" 0
      emptyRLState).1.allowed = true ∧
    (validateQuery (mkGuardrails {}) "tell me about malware" "default" 0
      emptyRLState).1.reason = none := by
  refine ⟨by decide, by decide, by decide, by decide, by decide⟩

/-! ## C10 — rejection is not uniformly atomic w.r.t. the rate-limit state -/

/-- C10: with a rate limit configured, a blocked-term rejection has already
recorded the request's timestamp (the user's list becomes the pruned list plus
`now`), whereas a length rejection or a rate-limit rejection returns the state
untouched. -/
theorem validateQuery_state_atomicity
    (g : Guardrails) (rl : RateLimitCfg) (query userId : String)
    (now : Int) (st : RLState)
    (hen : g.enabled = true) (hrl : g.rateLimit = some rl) :
    -- (a) blocked-term rejection: timestamp recorded before the term check
    ((query.length ≤ g.maxQueryLength) →
      (((st userId).filter (fun t => now - t < rl.window)).length < rl.requests) →
      (g.blockedTerms.any
        (fun term => strIncludes (strToLower (sanitizeInput query)) (strToLower term)) = true) →
      (validateQuery g query userId now st).1.allowed = false ∧
      (validateQuery g query userId now st).1.reason =
        some "Query contains blocked content" ∧
      (validateQuery g query userId now st).2 userId =
        (st userId).filter (fun t => now - t < rl.window) ++ [now]) ∧
    -- (b) length rejection: state unchanged
    ((g.maxQueryLength < query.length) →
      (validateQuery g query userId now st).1.allowed = false ∧
      (validateQuery g query userId now st).1.reason = some (lengthReason g) ∧
      (validateQuery g query userId now st).2 = st) ∧
    -- (c) rate-limit rejection: state unchanged
    ((query.length ≤ g.maxQueryLength) →
      (rl.requests ≤ ((st userId).filter (fun t => now - t < rl.window)).length) →
      (validateQuery g query userId now st).1.allowed = false ∧
      (validateQuery g query userId now st).1.reason = some (rateReason rl) ∧
      (validateQuery g query userId now st).2 = st) := by
  refine ⟨?_, ?_, ?_⟩
  · intro hlen hcount hterm
    unfold validateQuery
    rw [if_neg (by simp [hen]), if_neg (by omega), hrl]
    simp only
    rw [if_neg (by omega)]
    unfold checkTermsAndTopics
    rw [if_pos (by simpa using hterm)]
    refine ⟨rfl, rfl, ?_⟩
    simp [setUser]
  · intro hlen
    unfold validateQuery
    rw [if_neg (by simp [hen]), if_pos (by omega)]
    exact ⟨rfl, rfl, rfl⟩
  · intro hlen hcount
    unfold validateQuery
    rw [if_neg (by simp [hen]), if_neg (by omega), hrl]
    simp only
    rw [if_pos (by omega)]
    exact ⟨rfl, rfl, rfl⟩

theorem validateQuery_state_atomicity_witness :
    ((validateQuery atomicityG2 "malware info" "u" 5
        (setUser emptyRLState "u" [0])).2 "u" = [0, 5]) ∧
    ((validateQuery atomicityG2short "too long" "u" 5
        (setUser emptyRLState "u" [0])).2 = setUser emptyRLState "u" [0]) ∧
    ((validateQuery atomicityG1 "malware info" "u" 5
        (setUser emptyRLState "u" [0])).2 = setUser emptyRLState "u" [0]) := by
  refine ⟨?_, ?_, ?_⟩
  · have h := (validateQuery_state_atomicity atomicityG2
      ⟨2, 1000⟩ "malware info" "u" 5 (setUser emptyRLState "u" [0])
      (by decide) (by decide)).1 (by decide) (by decide) (by decide)
    rw [h.2.2]
    decide
  · exact ((validateQuery_state_atomicity atomicityG2short
      ⟨2, 1000⟩ "too long" "u" 5 (setUser emptyRLState "u" [0])
      (by decide) (by decide)).2.1 (by decide)).2.2
  · exact ((validateQuery_state_atomicity atomicityG1
      ⟨1, 1000⟩ "malware info" "u" 5 (setUser emptyRLState "u" [0])
      (by decide) (by decide)).2.2 (by decide) (by decide)).2.2

/-! ## C4 — routeQuery classification -/

/-- C4: `routeQuery` classifies the retrieval outcome exactly as: empty
retrieval → `no_documents` with `useRAG = false` (and no scores); non-empty
with the first result's score strictly below `routingThreshold` →
`low_relevance` with `useRAG = false`; otherwise `relevant_content` with
`useRAG = true`; in the non-empty cases `topScore` is the first result's score
and `avgScore` the arithmetic mean of all result scores. -/
theorem routeQuery_classification (e : Engine) (query : String) :
    (retrieve e query e.topK = [] →
      routeQuery e query =
        { useRAG := false, reason := "no_documents",
          topScore := none, avgScore := none, docs := [] }) ∧
    (∀ d ds, retrieve e query e.topK = d :: ds →
      d.score < e.routingThreshold →
      routeQuery e query =
        { useRAG := false, reason := "low_relevance",
          topScore := some d.score,
          avgScore := some (sumScores (d :: ds) / ((d :: ds).length : ℚ)),
          docs := d :: ds }) ∧
    (∀ d ds, retrieve e query e.topK = d :: ds →
      e.routingThreshold ≤ d.score →
      routeQuery e query =
        { useRAG := true, reason := "relevant_content",
          topScore := some d.score,
          avgScore := some (sumScores (d :: ds) / ((d :: ds).length : ℚ)),
          docs := d :: ds }) := by
  refine ⟨?_, ?_, ?_⟩
  · intro hempty
    unfold routeQuery
    rw [hempty]
    rfl
  · intro d ds hret hlow
    unfold routeQuery
    rw [hret]
    have hne : (d :: ds).length ≠ 0 := by simp
    rw [if_neg hne]
    have hhead : headScoreOr0 (d :: ds) = d.score := rfl
    rw [hhead, if_pos hlow]
  · intro d ds hret hhigh
    unfold routeQuery
    rw [hret]
    have hne : (d :: ds).length ≠ 0 := by simp
    rw [if_neg hne]
    have hhead : headScoreOr0 (d :: ds) = d.score := rfl
    rw [hhead, if_neg (not_lt.mpr hhigh)]

theorem routeQuery_classification_witness :
    routeQuery emptyEngine "q" =
      { useRAG := false, reason := "no_documents",
        topScore := none, avgScore := none, docs := [] } ∧
    routeQuery oneDocEngine "q" =
      { useRAG := true, reason := "relevant_content",
        topScore := some 1,
        avgScore := some (sumScores
          [{ id := "a", content := "c", metadata := "", score := 1 }] /
          (([({ id := "a", content := "c", metadata := "", score := 1 } :
              ScoredDoc)].length : Nat) : ℚ)),
        docs := [{ id := "a", content := "c", metadata := "", score := 1 }] } := by
  constructor
  · exact (routeQuery_classification emptyEngine "q").1 (by decide)
  · exact (routeQuery_classification oneDocEngine "q").2.2
      { id := "a", content := "c", metadata := "", score := 1 } []
      (by decide) (by decide)

/-! ## Sorting and retrieval lemmas (C2, C3) -/

theorem mem_insertDescPair {z x : String × ℚ} :
    ∀ {l : List (String × ℚ)}, z ∈ insertDescPair x l ↔ z = x ∨ z ∈ l := by
  intro l
  induction l with
  | nil => simp [insertDescPair]
  | cons y ys ih =>
    by_cases hxy : x.2 < y.2
    · rw [show insertDescPair x (y :: ys) = y :: insertDescPair x ys by
        simp [insertDescPair, hxy]]
      simp [ih]
      tauto
    · rw [show insertDescPair x (y :: ys) = x :: y :: ys by
        simp [insertDescPair, hxy]]
      simp

theorem pairwise_insertDescPair (x : String × ℚ) :
    ∀ {l : List (String × ℚ)}, l.Pairwise (fun a b => b.2 ≤ a.2) →
      (insertDescPair x l).Pairwise (fun a b => b.2 ≤ a.2) := by
  intro l
  induction l with
  | nil => intro _; simp [insertDescPair]
  | cons y ys ih =>
    intro h
    rw [List.pairwise_cons] at h
    by_cases hxy : x.2 < y.2
    · rw [show insertDescPair x (y :: ys) = y :: insertDescPair x ys by
        simp [insertDescPair, hxy]]
      rw [List.pairwise_cons]
      refine ⟨?_, ih h.2⟩
      intro z hz
      rcases mem_insertDescPair.mp hz with hzx | hzy
      · subst hzx; exact le_of_lt hxy
      · exact h.1 z hzy
    · rw [show insertDescPair x (y :: ys) = x :: y :: ys by
        simp [insertDescPair, hxy]]
      rw [List.pairwise_cons]
      refine ⟨?_, List.pairwise_cons.mpr h⟩
      intro z hz
      rcases List.mem_cons.mp hz with hzy | hzys
      · subst hzy; exact le_of_not_lt hxy
      · exact le_trans (h.1 z hzys) (le_of_not_lt hxy)

theorem pairwise_sortDescPairs :
    ∀ l : List (String × ℚ), (sortDescPairs l).Pairwise (fun a b => b.2 ≤ a.2) := by
  intro l
  induction l with
  | nil => simp [sortDescPairs]
  | cons x xs ih => exact pairwise_insertDescPair x ih

theorem mem_sortDescPairs {z : String × ℚ} :
    ∀ {l : List (String × ℚ)}, z ∈ sortDescPairs l ↔ z ∈ l := by
  intro l
  induction l with
  | nil => simp [sortDescPairs]
  | cons x xs ih =>
    show z ∈ insertDescPair x (sortDescPairs xs) ↔ _
    rw [mem_insertDescPair]
    simp [ih]

theorem length_insertDescPair (x : String × ℚ) :
    ∀ l : List (String × ℚ), (insertDescPair x l).length = l.length + 1 := by
  intro l
  induction l with
  | nil => rfl
  | cons y ys ih =>
    by_cases hxy : x.2 < y.2
    · rw [show insertDescPair x (y :: ys) = y :: insertDescPair x ys by
        simp [insertDescPair, hxy]]
      simp [ih]
    · rw [show insertDescPair x (y :: ys) = x :: y :: ys by
        simp [insertDescPair, hxy]]
      simp

theorem length_sortDescPairs :
    ∀ l : List (String × ℚ), (sortDescPairs l).length = l.length := by
  intro l
  induction l with
  | nil => rfl
  | cons x xs ih =>
    show (insertDescPair x (sortDescPairs xs)).length = _
    rw [length_insertDescPair, ih]
    rfl

/-- A `filterMap` whose function preserves the score component turns a
score-descending pair list into a score-descending result list. -/
theorem pairwise_filterMap_scores (toR : String × ℚ → Option ScoredDoc)
    (hscore : ∀ p d, toR p = some d → d.score = p.2) :
    ∀ l : List (String × ℚ), l.Pairwise (fun a b => b.2 ≤ a.2) →
      (l.filterMap toR).Pairwise (fun a b => b.score ≤ a.score) := by
  intro l
  induction l with
  | nil => intro _; simp
  | cons x xs ih =>
    intro h
    rw [List.pairwise_cons] at h
    rw [List.filterMap_cons]
    cases hx : toR x with
    | none => exact ih h.2
    | some y =>
      rw [List.pairwise_cons]
      refine ⟨?_, ih h.2⟩
      intro z hz
      rw [List.mem_filterMap] at hz
      obtain ⟨p, hp, hpz⟩ := hz
      rw [hscore p z hpz, hscore x y hx]
      exact h.1 p hp

/-- C2: `retrieve(query, k)` returns at most `k` results, ordered by score
non-increasing.  The data source's native search (the fallback path) is an
external capability; its contract — at most `limit` results, score-descending
— is spec-modelled as the hypothesis `hsearch`. -/
theorem retrieve_count_and_order (e : Engine) (query : String) (k : Nat)
    (hsearch : ∀ q n, (e.searchF q n).length ≤ n ∧
      (e.searchF q n).Pairwise (fun a b => b.score ≤ a.score)) :
    (retrieve e query k).length ≤ k ∧
    (retrieve e query k).Pairwise (fun a b => b.score ≤ a.score) := by
  unfold retrieve
  by_cases hcond : e.hasEmbeddings = true ∧ 0 < e.index.length
  · rw [if_pos hcond]
    unfold retrieveByVector
    set sims := findSimilar e.simF (e.embedF query) (values e.index) (k * 2) with hsims
    have hsorted : sims.Pairwise (fun a b => b.2 ≤ a.2) := by
      rw [hsims]
      unfold findSimilar
      exact (pairwise_sortDescPairs _).sublist (List.take_sublist _ _)
    set toR : String × ℚ → Option ScoredDoc := fun p =>
      (getEntry e.index p.1).map (fun d =>
        { id := d.id, content := d.content, metadata := d.metadata, score := p.2 })
      with htoR
    have hsc : ∀ p d, toR p = some d → d.score = p.2 := by
      intro p d hpd
      rw [htoR] at hpd
      simp only [Option.map_eq_some'] at hpd
      obtain ⟨w, _, hw⟩ := hpd
      rw [← hw]
    by_cases hfb :
        ((sims.filter (fun p => e.similarityThreshold ≤ p.2)).take k |>.filterMap toR).length = 0
        ∧ 0 < sims.length
    · rw [if_pos hfb]
      constructor
      · exact le_trans (List.length_filterMap_le _ _) (by simpa using List.length_take_le _ _)
      · exact pairwise_filterMap_scores toR hsc _
          (hsorted.sublist (List.take_sublist _ _))
    · rw [if_neg hfb]
      constructor
      · exact le_trans (List.length_filterMap_le _ _)
          (le_trans (by simpa using List.length_take_le _ _) le_rfl)
      · exact pairwise_filterMap_scores toR hsc _
          ((hsorted.sublist (List.filter_sublist _)).sublist (List.take_sublist _ _))
  · rw [if_neg hcond]
    exact hsearch query k

theorem retrieve_count_and_order_witness :
    (retrieve emptyEngine "q" 3).length ≤ 3 ∧
    (retrieve emptyEngine "q" 3).Pairwise (fun a b => b.score ≤ a.score) :=
  retrieve_count_and_order emptyEngine "q" 3 (fun _ n => ⟨by simp [emptyEngine], by simp [emptyEngine]⟩)

/-- C3 counterexample: with embeddings configured and a non-empty vector
index, `retrieve` *does* return the empty list when the requested count is
`0` — the claim's "never returns an empty result list" fails at `topK = 0`. -/
theorem retrieve_empty_at_zero_topK :
    vecEngine.hasEmbeddings = true ∧ 0 < vecEngine.index.length ∧
    retrieve vecEngine "q" 0 = [] := by
  refine ⟨by decide, by decide, by decide⟩

theorem getEntry_isSome_of_key (m : VIndex) (k : String) :
    (∃ q ∈ m, q.1 = k) → (getEntry m k).isSome = true := by
  induction m with
  | nil => intro ⟨q, hq, _⟩; simp at hq
  | cons p rest ih =>
    intro ⟨q, hq, hqk⟩
    obtain ⟨pk, pv⟩ := p
    unfold getEntry
    by_cases hk : pk = k
    · rw [if_pos hk]; rfl
    · rw [if_neg hk]
      apply ih
      rcases List.mem_cons.mp hq with hph | hpt
      · exfalso
        apply hk
        rw [← hqk, hph]
      · exact ⟨q, hpt, hqk⟩

/-- C3 (amended): with embeddings configured, a non-empty vector index whose
keys match their documents' ids, and a *positive* requested count,
`retrieve` never returns the empty list: when no candidate clears the
threshold the best `topK` are returned anyway. -/
theorem retrieve_nonempty_of_pos_topK (e : Engine) (query : String) (k : Nat)
    (hemb : e.hasEmbeddings = true) (hne : e.index ≠ [])
    (hkeys : ∀ p ∈ e.index, p.1 = p.2.id) (hk : 1 ≤ k) :
    retrieve e query k ≠ [] := by
  have hidxlen : 0 < e.index.length := by
    cases hidx : e.index with
    | nil => exact absurd hidx hne
    | cons a l => simp
  unfold retrieve
  rw [if_pos ⟨hemb, hidxlen⟩]
  unfold retrieveByVector
  set sims := findSimilar e.simF (e.embedF query) (values e.index) (k * 2) with hsims
  set toR : String × ℚ → Option ScoredDoc := fun p =>
    (getEntry e.index p.1).map (fun d =>
      { id := d.id, content := d.content, metadata := d.metadata, score := p.2 })
    with htoR
  have hsimslen : sims.length = min (k * 2) e.index.length := by
    rw [hsims]
    unfold findSimilar
    rw [List.length_take, length_sortDescPairs, List.length_map]
    unfold values
    rw [List.length_map]
  have hsimspos : 0 < sims.length := by
    rw [hsimslen]
    omega
  have htotal : ∀ p ∈ sims, (toR p).isSome = true := by
    intro p hp
    have hp2 : p ∈ sortDescPairs ((values e.index).map
        (fun d => (d.id, e.simF (e.embedF query) d.vector))) := by
      rw [hsims] at hp
      unfold findSimilar at hp
      exact (List.take_sublist _ _).subset hp
    rw [mem_sortDescPairs] at hp2
    rw [List.mem_map] at hp2
    obtain ⟨d, hd, hdp⟩ := hp2
    unfold values at hd
    rw [List.mem_map] at hd
    obtain ⟨q, hq, hqd⟩ := hd
    have hge := getEntry_isSome_of_key e.index p.1
      ⟨q, hq, by rw [hkeys q hq, hqd, ← hdp]⟩
    rw [htoR]
    simp only [Option.isSome_map']
    exact hge
  have hfmne : ∀ l : List (String × ℚ), l ≠ [] → (∀ p ∈ l, (toR p).isSome = true) →
      l.filterMap toR ≠ [] := by
    intro l hlne hall
    cases l with
    | nil => exact absurd rfl hlne
    | cons p ps =>
      have hps := hall p (by simp)
      cases hx : toR p with
      | none => rw [hx] at hps; simp at hps
      | some y =>
        intro hcontra
        have hy : y ∈ (p :: ps).filterMap toR :=
          List.mem_filterMap.mpr ⟨p, by simp, hx⟩
        rw [hcontra] at hy
        simp at hy
  by_cases hfb :
      ((sims.filter (fun p => e.similarityThreshold ≤ p.2)).take k |>.filterMap toR).length = 0
      ∧ 0 < sims.length
  · rw [if_pos hfb]
    apply hfmne
    · intro hcontra
      have hlen := congrArg List.length hcontra
      rw [List.length_take, hsimslen] at hlen
      simp only [List.length_nil] at hlen
      omega
    · intro p hp
      exact htotal p ((List.take_sublist _ _).subset hp)
  · rw [if_neg hfb]
    intro hcontra
    apply hfb
    refine ⟨?_, hsimspos⟩
    rw [hcontra]
    rfl

theorem retrieve_nonempty_of_pos_topK_witness :
    retrieve vecEngine "q" 1 ≠ [] :=
  retrieve_nonempty_of_pos_topK vecEngine "q" 1 (by decide) (by decide)
    (by decide) (by decide)

/-! ## C8 — refresh does not rebuild the index wholesale -/

theorem containsKey_setEntry (m : VIndex) (k : String) (v : DocV) (k' : String) :
    containsKey (setEntry m k v) k' = true ↔ (containsKey m k' = true ∨ k' = k) := by
  induction m with
  | nil =>
    unfold setEntry containsKey
    simp
    tauto
  | cons p rest ih =>
    obtain ⟨pk, pv⟩ := p
    unfold setEntry
    by_cases hk : pk = k
    · rw [if_pos hk]
      unfold containsKey
      simp
      subst hk
      tauto
    · rw [if_neg hk]
      unfold containsKey at ih ⊢
      simp at ih ⊢
      tauto

theorem containsKey_buildVectorIndex (embedF : String → List ℚ) :
    ∀ (docs : List SrcDoc) (index : VIndex) (id : String),
      containsKey (buildVectorIndex embedF docs index) id = true ↔
        (containsKey index id = true ∨ id ∈ docs.map SrcDoc.id) := by
  intro docs
  induction docs with
  | nil =>
    intro index id
    unfold buildVectorIndex
    simp
  | cons doc rest ih =>
    intro index id
    show containsKey (buildVectorIndex embedF rest
      (setEntry index doc.id _)) id = true ↔ _
    rw [ih]
    rw [containsKey_setEntry]
    simp
    tauto

/-- C8 (amended): after `refresh`, `documentVectors` contains an entry for a
key exactly when that key is the id of a current document *or was already
present before the refresh*: `buildVectorIndex` upserts into the existing map
and never removes stale entries. -/
theorem refreshIndex_keys (embedF : String → List ℚ) (docs : List SrcDoc)
    (index : VIndex) (id : String) :
    containsKey (refreshIndex embedF docs index) id = true ↔
      (containsKey index id = true ∨ id ∈ docs.map SrcDoc.id) :=
  containsKey_buildVectorIndex embedF docs index id

/-- C8 counterexample: a document with id "a" was removed from the data source
(the reloaded document list contains only id "b"), yet after `refresh` the
mapping still contains the entry for "a" — the claim that the mapping holds
exactly the ids of the current documents fails. -/
theorem refreshIndex_stale_key :
    containsKey (refreshIndex (fun _ => [])
      [{ id := "b", content := "cb", metadata := "" }]
      [("a", { id := "a", content := "ca", metadata := "", vector := [] })]) "a" = true ∧
    "a" ∉ ([{ id := "b", content := "cb", metadata := "" }] : List SrcDoc).map SrcDoc.id := by
  refine ⟨by decide, by decide⟩

/-! ## C1 — rejected queries short-circuit the orchestrator -/

/-- C1: when `validateQuery` rejects, `RAGEngine.query` returns (does not
throw) a structured blocked result — `sources = []`, `blocked = true`, the
answer carrying the rejection reason — without ever invoking
`llm.generateResponse` (`llmCalled = false`). -/
theorem query_blocked_short_circuit (e : Engine) (g : Guardrails)
    (query : String) (options : QueryOptions) (now : Int) (st : RLState)
    (hinit : e.initialized = true) (hg : e.guardrails = some g)
    (hrej : (validateQuery g query (options.userId.getD "default") now st).1.allowed
      = false) :
    queryModel e query options now st =
      Except.ok
        ({ result :=
             { answer := "I cannot process this query: " ++
                 optStr (validateQuery g query (options.userId.getD "default")
                   now st).1.reason,
               sources := [],
               query := jsOrStr (validateQuery g query
                 (options.userId.getD "default") now st).1.sanitized query,
               mode := (queryResolve e query options).1,
               routing := queryRoutingInfo e query options,
               blocked := true,
               reason := (validateQuery g query (options.userId.getD "default")
                 now st).1.reason,
               warnings := none },
           llmCalled := false },
         (validateQuery g query (options.userId.getD "default") now st).2) := by
  unfold queryModel
  rw [if_neg (by simp [hinit])]
  simp only [hg]
  rw [if_pos (by simp [hrej])]

theorem query_blocked_short_circuit_witness :
    queryModel blockedEngine "hello" {} 0 emptyRLState =
      Except.ok
        ({ result :=
             { answer :=
                 "I cannot process this query: Query exceeds maximum length of 3 characters",
               sources := [],
               query := "hello",
               mode := Mode.hybrid,
               routing := some { topScore := 0, avgScore := 0, docCount := 0 },
               blocked := true,
               reason := some "Query exceeds maximum length of 3 characters",
               warnings := none },
           llmCalled := false }, emptyRLState) := by
  rw [query_blocked_short_circuit blockedEngine
    (mkGuardrails { maxQueryLength := some 3 }) "hello" {} 0 emptyRLState
    (by decide) rfl (by decide)]
  rfl

/-! ## C6 — rejected responses replace only the answer text -/

/-- `validateResponse` rejects an over-long response with the length reason. -/
theorem validateResponse_too_long (g : Guardrails) (r : String)
    (hen : g.enabled = true) (hlen : g.maxResponseLength < r.length) :
    validateResponse g r =
      { allowed := false,
        reason := some ("Response exceeds maximum length of " ++
          toString g.maxResponseLength ++ " characters"),
        sanitized := none, warnings := none } := by
  unfold validateResponse
  rw [if_neg (by simp [hen]), if_pos hlen]

/-- C6: with query validation passing, let `answer` be the generated response.
If `validateResponse` rejects it, the result substitutes only the answer text
("Response blocked: " plus the reason); if it accepts, the result carries the
sanitized, policy-annotated answer — in both cases with the *same* sources,
query, mode, routing and warnings fields.  In the specific length case
(`maxResponseLength = 10000`, response longer than that, e.g. 11,000
characters), the final answer is exactly
"Response blocked: Response exceeds maximum length of 10000 characters". -/
theorem query_response_blocked (e : Engine) (g : Guardrails)
    (query : String) (options : QueryOptions) (now : Int) (st : RLState)
    (hinit : e.initialized = true) (hg : e.guardrails = some g)
    (hok : (validateQuery g query (options.userId.getD "default") now st).1.allowed
      = true) :
    ((validateResponse g (e.genF
        ((validateQuery g query (options.userId.getD "default") now st).1.sanitized.getD query)
        (if (queryResolve e query options).1 = Mode.llm then []
         else ((queryResolve e query options).2.2.filter
           (fun doc => validateDocument g doc.content)))
        (queryResolve e query options).2.1)).allowed = false →
      queryModel e query options now st =
        Except.ok
          ({ result :=
               { answer := "Response blocked: " ++
                   optStr (validateResponse g (e.genF
                     ((validateQuery g query (options.userId.getD "default") now
                       st).1.sanitized.getD query)
                     (if (queryResolve e query options).1 = Mode.llm then []
                      else ((queryResolve e query options).2.2.filter
                        (fun doc => validateDocument g doc.content)))
                     (queryResolve e query options).2.1)).reason,
                 sources := ((queryResolve e query options).2.2.filter
                   (fun doc => validateDocument g doc.content)).map mkSourceEntry,
                 query := jsOrStr (validateQuery g query
                     (options.userId.getD "default") now st).1.sanitized
                   ((validateQuery g query (options.userId.getD "default") now
                     st).1.sanitized.getD query),
                 mode := (queryResolve e query options).1,
                 routing := queryRoutingInfo e query options,
                 blocked := false, reason := none,
                 warnings := (validateQuery g query
                   (options.userId.getD "default") now st).1.warnings },
             llmCalled := true },
           (validateQuery g query (options.userId.getD "default") now st).2)) ∧
    ((validateResponse g (e.genF
        ((validateQuery g query (options.userId.getD "default") now st).1.sanitized.getD query)
        (if (queryResolve e query options).1 = Mode.llm then []
         else ((queryResolve e query options).2.2.filter
           (fun doc => validateDocument g doc.content)))
        (queryResolve e query options).2.1)).allowed = true →
      queryModel e query options now st =
        Except.ok
          ({ result :=
               { answer := applyResponsePolicies g
                   ((validateResponse g (e.genF
                     ((validateQuery g query (options.userId.getD "default") now
                       st).1.sanitized.getD query)
                     (if (queryResolve e query options).1 = Mode.llm then []
                      else ((queryResolve e query options).2.2.filter
                        (fun doc => validateDocument g doc.content)))
                     (queryResolve e query options).2.1)).sanitized.getD
                     (e.genF
                       ((validateQuery g query (options.userId.getD "default") now
                         st).1.sanitized.getD query)
                       (if (queryResolve e query options).1 = Mode.llm then []
                        else ((queryResolve e query options).2.2.filter
                          (fun doc => validateDocument g doc.content)))
                       (queryResolve e query options).2.1))
                   ((validateQuery g query (options.userId.getD "default") now
                     st).1.sanitized.getD query),
                 sources := ((queryResolve e query options).2.2.filter
                   (fun doc => validateDocument g doc.content)).map mkSourceEntry,
                 query := jsOrStr (validateQuery g query
                     (options.userId.getD "default") now st).1.sanitized
                   ((validateQuery g query (options.userId.getD "default") now
                     st).1.sanitized.getD query),
                 mode := (queryResolve e query options).1,
                 routing := queryRoutingInfo e query options,
                 blocked := false, reason := none,
                 warnings := (validateQuery g query
                   (options.userId.getD "default") now st).1.warnings },
             llmCalled := true },
           (validateQuery g query (options.userId.getD "default") now st).2)) ∧
    (g.enabled = true → g.maxResponseLength = 10000 →
      10000 < (e.genF
        ((validateQuery g query (options.userId.getD "default") now st).1.sanitized.getD query)
        (if (queryResolve e query options).1 = Mode.llm then []
         else ((queryResolve e query options).2.2.filter
           (fun doc => validateDocument g doc.content)))
        (queryResolve e query options).2.1).length →
      ∀ out st', queryModel e query options now st = Except.ok (out, st') →
        out.result.answer =
          "Response blocked: Response exceeds maximum length of 10000 characters") := by
  have hbase : queryModel e query options now st =
      Except.ok
        ({ result :=
             { answer :=
                 if ¬ (validateResponse g (e.genF
                     ((validateQuery g query (options.userId.getD "default") now
                       st).1.sanitized.getD query)
                     (if (queryResolve e query options).1 = Mode.llm then []
                      else ((queryResolve e query options).2.2.filter
                        (fun doc => validateDocument g doc.content)))
                     (queryResolve e query options).2.1)).allowed then
                   "Response blocked: " ++
                     optStr (validateResponse g (e.genF
                       ((validateQuery g query (options.userId.getD "default") now
                         st).1.sanitized.getD query)
                       (if (queryResolve e query options).1 = Mode.llm then []
                        else ((queryResolve e query options).2.2.filter
                          (fun doc => validateDocument g doc.content)))
                       (queryResolve e query options).2.1)).reason
                 else applyResponsePolicies g
                   ((validateResponse g (e.genF
                     ((validateQuery g query (options.userId.getD "default") now
                       st).1.sanitized.getD query)
                     (if (queryResolve e query options).1 = Mode.llm then []
                      else ((queryResolve e query options).2.2.filter
                        (fun doc => validateDocument g doc.content)))
                     (queryResolve e query options).2.1)).sanitized.getD
                     (e.genF
                       ((validateQuery g query (options.userId.getD "default") now
                         st).1.sanitized.getD query)
                       (if (queryResolve e query options).1 = Mode.llm then []
                        else ((queryResolve e query options).2.2.filter
                          (fun doc => validateDocument g doc.content)))
                       (queryResolve e query options).2.1))
                   ((validateQuery g query (options.userId.getD "default") now
                     st).1.sanitized.getD query),
               sources := ((queryResolve e query options).2.2.filter
                 (fun doc => validateDocument g doc.content)).map mkSourceEntry,
               query := jsOrStr (validateQuery g query
                   (options.userId.getD "default") now st).1.sanitized
                 ((validateQuery g query (options.userId.getD "default") now
                   st).1.sanitized.getD query),
               mode := (queryResolve e query options).1,
               routing := queryRoutingInfo e query options,
               blocked := false, reason := none,
               warnings := (validateQuery g query
                 (options.userId.getD "default") now st).1.warnings },
           llmCalled := true },
         (validateQuery g query (options.userId.getD "default") now st).2) := by
    unfold queryModel
    rw [if_neg (by simp [hinit])]
    simp only [hg]
    rw [if_neg (by simp [hok])]
  refine ⟨?_, ?_, ?_⟩
  · intro hrej
    rw [hbase]
    rw [if_pos (by simp [hrej])]
  · intro hacc
    rw [hbase]
    rw [if_neg (by simp [hacc])]
  · intro henb h10 hlen out st' heq
    have hvr := validateResponse_too_long g (e.genF
      ((validateQuery g query (options.userId.getD "default") now st).1.sanitized.getD query)
      (if (queryResolve e query options).1 = Mode.llm then []
       else ((queryResolve e query options).2.2.filter
         (fun doc => validateDocument g doc.content)))
      (queryResolve e query options).2.1) henb (by omega)
    rw [hbase] at heq
    rw [if_pos (by simp [hvr])] at heq
    have hout := congrArg (fun x : Except String (QueryOutcome × RLState) =>
      match x with
      | Except.ok p => p.1.result.answer
      | Except.error _ => "") heq
    simp only at hout
    rw [← hout, hvr, h10]
    decide

theorem query_response_blocked_witness :
    ∃ out st', queryModel longAnswerEngine "hi" {} 0 emptyRLState =
        Except.ok (out, st') ∧
      out.result.answer =
        "Response blocked: Response exceeds maximum length of 10000 characters" := by
  have hanslen : ∀ (a : String) (b : List ScoredDoc) (c : Option String),
      10000 < (longAnswerEngine.genF a b c).length := by
    intro a b c
    show (10000 : Nat) < (String.mk (List.replicate 11000 'a')).length
    have hlen : (String.mk (List.replicate 11000 'a')).length = 11000 := by
      show (List.replicate 11000 'a').length = 11000
      exact List.length_replicate 11000 'a'
    rw [hlen]
    decide
  have h := query_response_blocked longAnswerEngine (mkGuardrails {}) "hi" {} 0
    emptyRLState (by decide) rfl (by decide)
  have heq := h.1 (by
    rw [validateResponse_too_long (mkGuardrails {}) _ (by decide) (hanslen _ _ _)])
  exact ⟨_, _, heq, h.2.2 (by decide) (by decide) (hanslen _ _ _) _ _ heq⟩

/-! ## C5 — sliding-window rate limiting -/

theorem lengthReason_ne_rateReason (g : Guardrails) (rl : RateLimitCfg) :
    lengthReason g ≠ rateReason rl := by
  intro h
  have h2 := congrArg (fun s => s.toList.head?) h
  unfold lengthReason rateReason at h2
  simp at h2

theorem blockedReason_ne_rateReason (rl : RateLimitCfg) :
    "Query contains blocked content" ≠ rateReason rl := by
  intro h
  have h2 := congrArg (fun s => s.toList.head?) h
  unfold rateReason at h2
  simp at h2

/-- The blocked-terms stage either rejects with the fixed blocked-content
reason or allows with no reason. -/
theorem checkTermsAndTopics_reason (g : Guardrails) (q : String) :
    (checkTermsAndTopics g q).reason = some "Query contains blocked content" ∨
      (checkTermsAndTopics g q).reason = none := by
  unfold checkTermsAndTopics
  by_cases h : (g.blockedTerms.any (fun term =>
      strIncludes (strToLower (sanitizeInput q)) (strToLower term))) = true
  · rw [if_pos h]
    left
    rfl
  · rw [if_neg h]
    right
    rfl

/-- `validateQuery` either leaves the state unchanged or records the pruned
list plus `now` for the user (the latter only in the configured-rate-limit,
length-accepted, rate-accepted path). -/
theorem validateQuery_state_cases (g : Guardrails) (q u : String) (now : Int)
    (st : RLState) (rl : RateLimitCfg) (hrl : g.rateLimit = some rl) :
    (validateQuery g q u now st).2 = st ∨
    (validateQuery g q u now st).2 =
      setUser st u ((st u).filter (fun t => now - t < rl.window) ++ [now]) := by
  unfold validateQuery
  by_cases hen : g.enabled = true
  · rw [if_neg (by simp [hen])]
    by_cases hlen : g.maxQueryLength < q.length
    · rw [if_pos hlen]
      left
      rfl
    · rw [if_neg hlen, hrl]
      simp only
      by_cases hcount : rl.requests ≤
          ((st u).filter (fun t => now - t < rl.window)).length
      · rw [if_pos hcount]
        left
        rfl
      · rw [if_neg hcount]
        right
        rfl
  · rw [if_pos (by simp [hen])]
    left
    rfl

/-- On the recording path, the resulting validation is the blocked-terms stage
(whose reason is never the rate-limit reason); on the other paths the reason
is the length reason, the rate reason (only when the pruned count reaches the
limit), the blocked-content reason, or absent. -/
theorem validateQuery_reason_cases (g : Guardrails) (q u : String) (now : Int)
    (st : RLState) (rl : RateLimitCfg) (hrl : g.rateLimit = some rl)
    (hN : 0 < rl.requests)
    (hfar : ∀ s ∈ st u, ¬(now - s < rl.window)) :
    (validateQuery g q u now st).1.reason ≠ some (rateReason rl) := by
  unfold validateQuery
  by_cases hen : g.enabled = true
  · rw [if_neg (by simp [hen])]
    by_cases hlen : g.maxQueryLength < q.length
    · rw [if_pos hlen]
      simp only
      intro hcontra
      exact lengthReason_ne_rateReason g rl (by injection hcontra)
    · rw [if_neg hlen, hrl]
      simp only
      have hfil : (st u).filter (fun t => now - t < rl.window) = [] := by
        rw [List.filter_eq_nil_iff]
        intro a ha
        simpa using hfar a ha
      rw [if_neg (by rw [hfil]; simp only [List.length_nil]; omega)]
      rcases checkTermsAndTopics_reason g q with hr | hr
      · rw [hr]
        intro hcontra
        exact blockedReason_ne_rateReason rl (by injection hcontra)
      · rw [hr]
        simp
  · rw [if_pos (by simp [hen])]
    simp

/-- The recording run: starting from a state holding exactly `pre` for user
`u`, a monotone sequence of calls all within the window of the final time is
fully recorded. -/
theorem callFold_records (g : Guardrails) (N : Nat) (W : Int) (q u : String)
    (hen : g.enabled = true) (hrl : g.rateLimit = some ⟨N, W⟩)
    (hq : q.length ≤ g.maxQueryLength) :
    ∀ (ts pre : List Int) (t : Int),
      pre.length + ts.length ≤ N →
      (pre ++ ts ++ [t]).Pairwise (· ≤ ·) →
      (∀ s ∈ pre ++ ts, t - s < W) →
      callFold g q u ts (setUser emptyRLState u pre) =
        setUser emptyRLState u (pre ++ ts) := by
  intro ts
  induction ts with
  | nil =>
    intro pre t _ _ _
    simp [callFold]
  | cons ti rest ih =>
    intro pre t hlen hpw hwin
    have hsplit := List.pairwise_append.mp hpw
    have hmem_ti : ∀ a ∈ pre, a ≤ ti := fun a ha =>
      (List.pairwise_append.mp hsplit.1).2.2 a ha ti (by simp)
    have hti_t : ti ≤ t := hsplit.2.2 ti (by simp) t (by simp)
    have hfil : pre.filter (fun s => ti - s < W) = pre := by
      apply List.filter_eq_self.mpr
      intro a ha
      have h1 : t - a < W := hwin a (by simp [ha])
      have h2 : a ≤ ti := hmem_ti a ha
      simp only [decide_eq_true_eq]
      omega
    have hstep : (validateQuery g q u ti (setUser emptyRLState u pre)).2 =
        setUser emptyRLState u (pre ++ [ti]) := by
      unfold validateQuery
      rw [if_neg (by simp [hen]), if_neg (by omega), hrl]
      simp only
      rw [show (setUser emptyRLState u pre) u = pre from by simp [setUser]]
      rw [hfil]
      rw [if_neg (by
        simp only [not_le]
        have : pre.length + (rest.length + 1) ≤ N := by simpa using hlen
        omega)]
      funext v
      by_cases hv : v = u <;> simp [setUser, hv]
    show callFold g q u rest (validateQuery g q u ti (setUser emptyRLState u pre)).2 = _
    rw [hstep]
    have := ih (pre ++ [ti]) t
      (by simp at hlen ⊢; omega)
      (by rw [List.append_assoc]; simpa using hpw)
      (by
        intro s hs
        apply hwin
        simp at hs ⊢
        tauto)
    rw [this]
    simp

/-- The spaced run: if every stored timestamp for `u` is out of window for
every upcoming call time and the call times are pairwise spaced by more than
`W`, no call in the sequence is rejected with the rate-limit reason. -/
theorem callResults_no_throttle (g : Guardrails) (N : Nat) (W : Int) (q u : String)
    (hrl : g.rateLimit = some ⟨N, W⟩) (hN : 1 ≤ N) :
    ∀ (ts : List Int) (st : RLState),
      ts.Pairwise (fun a b => a + W < b) →
      (∀ s ∈ st u, ∀ t' ∈ ts, ¬(t' - s < W)) →
      ∀ v ∈ callResults g q u ts st, v.reason ≠ some (rateReason ⟨N, W⟩) := by
  intro ts
  induction ts with
  | nil =>
    intro st _ _ v hv
    simp [callResults] at hv
  | cons ti rest ih =>
    intro st hpw hfar v hv
    have hv2 : v = (validateQuery g q u ti st).1 ∨
        v ∈ callResults g q u rest (validateQuery g q u ti st).2 := by
      simpa [callResults] using hv
    rcases hv2 with hv1 | hvr
    · subst hv1
      exact validateQuery_reason_cases g q u ti st ⟨N, W⟩ hrl (by show 0 < N; omega)
        (fun s hs => hfar s hs ti (by simp))
    · refine ih (validateQuery g q u ti st).2 (List.Pairwise.of_cons hpw) ?_ v hvr
      intro s hs t' ht'
      rcases validateQuery_state_cases g q u ti st ⟨N, W⟩ hrl with hst | hst
      · rw [hst] at hs
        exact hfar s hs t' (by simp [ht'])
      · rw [hst] at hs
        have hs' : s ∈ (st u).filter (fun t => decide (ti - t < W)) ++ [ti] := by
          simpa [setUser] using hs
        rcases List.mem_append.mp hs' with hs1 | hs2
        · exact hfar s ((List.filter_sublist _).subset hs1) t' (by simp [ht'])
        · have hsti : s = ti := by simpa using hs2
          subst hsti
          have := (List.pairwise_cons.mp hpw).1 t' ht'
          omega

/-- C5: with rate-limit config `{requests := N, window := W}` (`N ≥ 1`,
`W ≥ 0`) and a query passing the length check: (a) after `N` recorded calls by
one user, all within `W` of a time `t` (times non-decreasing), the next call
at `t` is rejected with the rate-limit reason (the `(N+1)`-th call within the
window); (b) a sequence of calls by one user spaced pairwise by strictly more
than `W` milliseconds is never rejected with the rate-limit reason. -/
theorem validateQuery_sliding_window (g : Guardrails) (N : Nat) (W : Int)
    (q u : String)
    (hen : g.enabled = true) (hrl : g.rateLimit = some ⟨N, W⟩)
    (hN : 1 ≤ N) (hq : q.length ≤ g.maxQueryLength) :
    (∀ (ts : List Int) (t : Int),
      ts.length = N →
      (ts ++ [t]).Pairwise (· ≤ ·) →
      (∀ s ∈ ts, t - s < W) →
      (validateQuery g q u t (callFold g q u ts emptyRLState)).1.allowed = false ∧
      (validateQuery g q u t (callFold g q u ts emptyRLState)).1.reason =
        some (rateReason ⟨N, W⟩)) ∧
    (∀ ts : List Int,
      ts.Pairwise (fun a b => a + W < b) →
      ∀ v ∈ callResults g q u ts emptyRLState,
        v.reason ≠ some (rateReason ⟨N, W⟩)) := by
  constructor
  · intro ts t hlen hpw hwin
    have hfold : callFold g q u ts emptyRLState = setUser emptyRLState u ts := by
      have h1 := callFold_records g N W q u hen hrl hq ts [] t
        (by simp [hlen]) (by simpa using hpw) (by simpa using hwin)
      have h0 : setUser emptyRLState u [] = emptyRLState := by
        funext v
        by_cases hv : v = u <;> simp [setUser, emptyRLState, hv]
      rw [h0] at h1
      simpa using h1
    rw [hfold]
    unfold validateQuery
    rw [if_neg (by simp [hen]), if_neg (by omega), hrl]
    simp only
    rw [show (setUser emptyRLState u ts) u = ts from by simp [setUser]]
    have hfil : ts.filter (fun s => t - s < W) = ts := by
      apply List.filter_eq_self.mpr
      intro a ha
      simp only [decide_eq_true_eq]
      exact hwin a ha
    rw [hfil]
    rw [if_pos (by omega)]
    exact ⟨rfl, rfl⟩
  · intro ts hpw
    exact callResults_no_throttle g N W q u hrl hN ts emptyRLState hpw
      (by intro s hs; simp [emptyRLState] at hs)

theorem validateQuery_sliding_window_witness :
    ((validateQuery rateG "hi" "default" 3
        (callFold rateG "hi" "default" [0] emptyRLState)).1.allowed = false ∧
      (validateQuery rateG "hi" "default" 3
        (callFold rateG "hi" "default" [0] emptyRLState)).1.reason =
          some (rateReason ⟨1, 10⟩)) ∧
    (∀ v ∈ callResults rateG "hi" "default" [0, 20] emptyRLState,
      v.reason ≠ some (rateReason ⟨1, 10⟩)) := by
  have h := validateQuery_sliding_window rateG 1 10 "hi" "default"
    (by decide) (by decide) (by decide) (by decide)
  exact ⟨h.1 [0] 3 (by decide) (by decide) (by decide), h.2 [0, 20] (by decide)⟩

/-! ## C7 — sanitizeInput is not idempotent -/

/-- C7 counterexample: removing the inner `javascript:` of
`"javajavascript:script:"` splices the surrounding text into a fresh
`javascript:`, which only a second application removes — so applying
`sanitizeInput` twice differs from applying it once. -/
theorem sanitizeInput_not_idempotent :
    sanitizeInput (sanitizeInput "javajavascript:script:") ≠
      sanitizeInput "javajavascript:script:" := by
  decide

/-- Unfolding of `sanitizeInput` on a non-empty input. -/
theorem sanitizeInput_ne_empty (t : String) (h : t ≠ "") :
    sanitizeInput t = String.mk (trimChars (collapseWs (filterBad
      (removeHandlers (removeJsScheme (removeScripts t.toList)))))) := by
  unfold sanitizeInput
  rw [if_neg h]

/-- C7 (amended): `sanitizeInput` is *not* idempotent in general (see
`sanitizeInput_not_idempotent`); it is idempotent on every input whose
sanitized form contains no further removable pattern — whenever the three
pattern-removal stages fix `sanitizeInput s`, a second application is the
identity, because the trailing character-filter / whitespace-collapse / trim
stages are always idempotent as a pipeline. -/
theorem sanitizeInput_idempotent_on_stable (s : String)
    (hS : removeScripts (sanitizeInput s).toList = (sanitizeInput s).toList)
    (hJ : removeJsScheme (sanitizeInput s).toList = (sanitizeInput s).toList)
    (hH : removeHandlers (sanitizeInput s).toList = (sanitizeInput s).toList) :
    sanitizeInput (sanitizeInput s) = sanitizeInput s := by
  by_cases hts : sanitizeInput s = ""
  · rw [hts]
    rfl
  · have hs : s ≠ "" := by
      intro h
      apply hts
      rw [h]
      rfl
    rw [sanitizeInput_ne_empty _ hts, hS, hJ, hH, sanitizeInput_ne_empty s hs]
    rw [toList_mk]
    obtain ⟨hA, hB, hC⟩ := filterBad_collapse_trim_fixed
      (removeHandlers (removeJsScheme (removeScripts s.toList)))
    rw [hA, hB, hC]

theorem sanitizeInput_idempotent_on_stable_witness :
    (removeScripts (sanitizeInput "hello  world").toList =
      (sanitizeInput "hello  world").toList) ∧
    (removeJsScheme (sanitizeInput "hello  world").toList =
      (sanitizeInput "hello  world").toList) ∧
    (removeHandlers (sanitizeInput "hello  world").toList =
      (sanitizeInput "hello  world").toList) ∧
    sanitizeInput (sanitizeInput "hello  world") = sanitizeInput "hello  world" :=
  ⟨by decide, by decide, by decide,
   sanitizeInput_idempotent_on_stable "hello  world" (by decide) (by decide)
     (by decide)⟩

end RagGroq
